import Mathlib

/-!
# Verification of the workoflow-mcp tool cache and server operations

This file gives a shallow embedding of the repository's Python source
(`workoflow_mcp/cache.py`, `workoflow_mcp/server.py`) and settles the
frozen claims about it.

Python strings are modelled as `List Char` (sequences of code points),
Python dicts as insertion-ordered association lists with unique keys,
`time.time()` instants as integers, and `hashlib.sha256(...).hexdigest()`
by a full executable SHA-256 implementation (FIPS 180-4) whose round
constants are derived from integer cube/square roots of the first primes
and validated below against the standard known-answer test vectors.
-/

set_option maxRecDepth 100000

/-! ## SHA-256 (FIPS 180-4), executable over `Nat` -/

/-- 2^32, the word modulus of SHA-256. -/
def w32mod : Nat := 4294967296

/-- Addition modulo 2^32. -/
def add32 (x y : Nat) : Nat := (x + y) % w32mod

/-- Right rotation of a 32-bit word by `n` places. -/
def rotr32 (n x : Nat) : Nat := ((x >>> n) ||| (x <<< (32 - n))) % w32mod

/-- Logical right shift (already within 32 bits for our inputs). -/
def shr32 (n x : Nat) : Nat := x >>> n

/-- Bitwise complement within 32 bits. -/
def not32 (x : Nat) : Nat := x ^^^ (w32mod - 1)

/-- Bisection step for the integer cube root. -/
def icbrtGo : Nat → Nat → Nat → Nat → Nat
  | 0, lo, _, _ => lo
  | fuel + 1, lo, hi, n =>
    if hi ≤ lo + 1 then lo
    else
      let m := (lo + hi) / 2
      if m * m * m ≤ n then icbrtGo fuel m hi n else icbrtGo fuel lo m n

/-- Integer cube root (floor of the real cube root). -/
def icbrt (n : Nat) : Nat := icbrtGo 200 0 (n + 2) n

/-- Bisection step for the integer square root. -/
def isqrtGo : Nat → Nat → Nat → Nat → Nat
  | 0, lo, _, _ => lo
  | fuel + 1, lo, hi, n =>
    if hi ≤ lo + 1 then lo
    else
      let m := (lo + hi) / 2
      if m * m ≤ n then isqrtGo fuel m hi n else isqrtGo fuel lo m n

/-- Integer square root (floor of the real square root). -/
def isqrt (n : Nat) : Nat := isqrtGo 200 0 (n + 2) n

/-- Primality by trial division (executable, kernel-reducible). -/
def isPrimeB (n : Nat) : Bool :=
  decide (2 ≤ n) && ((List.range n).drop 2).all (fun d => n % d != 0)

/-- The first 64 primes, used to derive the SHA-256 round constants. -/
def sha256Primes : List Nat :=
  ((List.range 312).filter isPrimeB).take 64

/-- Round constants: the first 32 bits of the fractional parts of the cube
roots of the first 64 primes. -/
def sha256K : List Nat := sha256Primes.map (fun p => icbrt (p * 2 ^ 96) % w32mod)

/-- Initial hash value: the first 32 bits of the fractional parts of the
square roots of the first 8 primes. -/
def sha256H0 : List Nat := (sha256Primes.take 8).map (fun p => isqrt (p * 2 ^ 64) % w32mod)

/-- Small sigma 0 of the message schedule. -/
def ssig0 (x : Nat) : Nat := rotr32 7 x ^^^ rotr32 18 x ^^^ shr32 3 x

/-- Small sigma 1 of the message schedule. -/
def ssig1 (x : Nat) : Nat := rotr32 17 x ^^^ rotr32 19 x ^^^ shr32 10 x

/-- Big sigma 0 of the compression function. -/
def bsig0 (x : Nat) : Nat := rotr32 2 x ^^^ rotr32 13 x ^^^ rotr32 22 x

/-- Big sigma 1 of the compression function. -/
def bsig1 (x : Nat) : Nat := rotr32 6 x ^^^ rotr32 11 x ^^^ rotr32 25 x

/-- Extend the 16 message words of a block to 64 schedule words. -/
def extendW : Nat → List Nat → List Nat
  | 0, ws => ws
  | n + 1, ws =>
    let len := ws.length
    let w16 := ws.getD (len - 16) 0
    let w15 := ws.getD (len - 15) 0
    let w7 := ws.getD (len - 7) 0
    let w2 := ws.getD (len - 2) 0
    extendW n (ws ++ [add32 (add32 (add32 w16 (ssig0 w15)) w7) (ssig1 w2)])

/-- One SHA-256 round: state transition on the eight working variables. -/
def sha256Round (st : Nat × Nat × Nat × Nat × Nat × Nat × Nat × Nat) (kw : Nat × Nat) :
    Nat × Nat × Nat × Nat × Nat × Nat × Nat × Nat :=
  match st, kw with
  | (a, b, c, d, e, f, g, h), (k, w) =>
    let ch := (e &&& f) ^^^ (not32 e &&& g)
    let t1 := add32 (add32 (add32 (add32 h (bsig1 e)) ch) k) w
    let mj := (a &&& b) ^^^ (a &&& c) ^^^ (b &&& c)
    let t2 := add32 (bsig0 a) mj
    (add32 t1 t2, a, b, c, add32 d t1, e, f, g)

/-- Big-endian 32-bit words from a stream of bytes (length a multiple of 4). -/
def bytesToWords : List Nat → List Nat
  | b0 :: b1 :: b2 :: b3 :: rest =>
    (b0 * 16777216 + b1 * 65536 + b2 * 256 + b3) :: bytesToWords rest
  | _ => []

/-- Process one 64-byte block, updating the eight-word hash state. -/
def sha256Block (hs : List Nat) (block : List Nat) : List Nat :=
  let ws := extendW 48 (bytesToWords block)
  let init : Nat × Nat × Nat × Nat × Nat × Nat × Nat × Nat :=
    (hs.getD 0 0, hs.getD 1 0, hs.getD 2 0, hs.getD 3 0,
     hs.getD 4 0, hs.getD 5 0, hs.getD 6 0, hs.getD 7 0)
  let r := (sha256K.zip ws).foldl sha256Round init
  [add32 (hs.getD 0 0) r.1, add32 (hs.getD 1 0) r.2.1, add32 (hs.getD 2 0) r.2.2.1,
   add32 (hs.getD 3 0) r.2.2.2.1, add32 (hs.getD 4 0) r.2.2.2.2.1,
   add32 (hs.getD 5 0) r.2.2.2.2.2.1, add32 (hs.getD 6 0) r.2.2.2.2.2.2.1,
   add32 (hs.getD 7 0) r.2.2.2.2.2.2.2]

/-- Big-endian byte expansion of a number to `n` bytes. -/
def natToBytesBE : Nat → Nat → List Nat
  | 0, _ => []
  | n + 1, v => natToBytesBE n (v / 256) ++ [v % 256]

/-- SHA-256 padding: append `0x80`, zeros, then the 64-bit message bit length. -/
def sha256Pad (msg : List Nat) : List Nat :=
  let r := (msg.length + 1) % 64
  let zeros := (64 + 56 - r) % 64
  msg ++ [128] ++ List.replicate zeros 0 ++ natToBytesBE 8 (msg.length * 8)

/-- Split a list into 64-element chunks (fuelled recursion). -/
def chunks64Go : Nat → List Nat → List (List Nat)
  | 0, _ => []
  | _, [] => []
  | fuel + 1, l => l.take 64 :: chunks64Go fuel (l.drop 64)

/-- Split a padded message into 64-byte blocks. -/
def chunks64 (l : List Nat) : List (List Nat) := chunks64Go l.length l

/-- The eight 32-bit words of the SHA-256 digest of a byte string. -/
def sha256Words (msg : List Nat) : List Nat :=
  (chunks64 (sha256Pad msg)).foldl sha256Block sha256H0

/-- Lowercase hex digit for a nibble. -/
def hexDig (n : Nat) : Char := "0123456789abcdef".data.getD n 'x'

/-- The 8 hex characters of one 32-bit word, most significant nibble first. -/
def wordHex (w : Nat) : List Char :=
  [hexDig (w / 268435456 % 16), hexDig (w / 16777216 % 16),
   hexDig (w / 1048576 % 16), hexDig (w / 65536 % 16),
   hexDig (w / 4096 % 16), hexDig (w / 256 % 16),
   hexDig (w / 16 % 16), hexDig (w % 16)]

/-- `hashlib.sha256(msg).hexdigest()`: the 64-character lowercase hex digest. -/
def sha256Hex (msg : List Nat) : List Char :=
  (sha256Words msg).foldr (fun w acc => wordHex w ++ acc) []

/-- UTF-8 encoding of one code point. -/
def utf8Char (n : Nat) : List Nat :=
  if n < 128 then [n]
  else if n < 2048 then [192 ||| (n >>> 6), 128 ||| (n &&& 63)]
  else if n < 65536 then
    [224 ||| (n >>> 12), 128 ||| ((n >>> 6) &&& 63), 128 ||| (n &&& 63)]
  else
    [240 ||| (n >>> 18), 128 ||| ((n >>> 12) &&& 63),
     128 ||| ((n >>> 6) &&& 63), 128 ||| (n &&& 63)]

/-- `str.encode()`: UTF-8 bytes of a string. -/
def utf8Bytes (s : List Char) : List Nat := (s.map (fun c => utf8Char c.toNat)).flatten

/-- Shorthand: the characters of a Lean string literal, modelling a Python `str`. -/
def pstr (s : String) : List Char := s.data

/-- Known-answer test: SHA-256 of the empty string (FIPS 180-4 vector). -/
theorem sha256_kat_empty :
    sha256Hex (utf8Bytes (pstr "")) =
      pstr "e3b0c44298fc1c149afbf4c8996fb92427ae41e4649b934ca495991b7852b855" := by
  decide

/-- Known-answer test: SHA-256 of "abc" (FIPS 180-4 vector). -/
theorem sha256_kat_abc :
    sha256Hex (utf8Bytes (pstr "abc")) =
      pstr "ba7816bf8f01cfea414140de5dae2223b00361a396177a9cb410ff61f20015ad" := by
  decide

/-! ## Python strings and dicts

A Python `str` is a sequence of code points, modelled as `List Char`.
A Python `dict` is an insertion-ordered mapping with unique keys, modelled
as an association list; `dictSet` replaces in place (as dict assignment
does), `dictGet` finds the first (in a dict: the only) binding, `dictDel`
removes it.  The uniqueness invariant of real dicts appears as a `Nodup`
hypothesis where a proof needs it. -/

/-- Python `t.startswith(p)`: `p` is a leading segment of `t`. -/
def startsWithL : List Char → List Char → Bool
  | _, [] => true
  | [], _ :: _ => false
  | c :: t', p0 :: p' => (p0 == c) && startsWithL t' p'

/-- Python `t in s` for strings: `t` occurs contiguously inside `s`. -/
def containsSub (s t : List Char) : Bool :=
  startsWithL s t ||
    match s with
    | [] => false
    | _ :: s' => containsSub s' t

/-- `dict[k] = v`: replace the binding in place, else append. -/
def dictSet {α : Type} : List (List Char × α) → List Char → α → List (List Char × α)
  | [], k, v => [(k, v)]
  | (k0, v0) :: rest, k, v =>
    if k0 = k then (k, v) :: rest else (k0, v0) :: dictSet rest k v

/-- `dict.get(k)` / `k in dict` lookup: the first binding for `k`. -/
def dictGet {α : Type} : List (List Char × α) → List Char → Option α
  | [], _ => none
  | (k0, v0) :: rest, k => if k0 = k then some v0 else dictGet rest k

/-- `del dict[k]` / `dict.pop(k, None)`: drop the binding for `k`. -/
def dictDel {α : Type} : List (List Char × α) → List Char → List (List Char × α)
  | [], _ => []
  | (k0, v0) :: rest, k => if k0 = k then rest else (k0, v0) :: dictDel rest k

/-- Delete every binding whose key satisfies `pf` (the effect of the
source's collect-matching-keys-then-`del`-each loop on a dict). -/
def dictDropAll {α : Type} (pf : List Char → Bool) :
    List (List Char × α) → List (List Char × α)
  | [] => []
  | (k0, v0) :: rest =>
    if pf k0 then dictDropAll pf rest else (k0, v0) :: dictDropAll pf rest

/-- The keys of a dict, for stating the uniqueness invariant. -/
def dictKeys {α : Type} (d : List (List Char × α)) : List (List Char) := d.map Prod.fst

/-! ## `workoflow_mcp/cache.py`: the token-scoped TTL cache -/

/-- `prompt_token.encode()` hashed and truncated:
`hashlib.sha256(prompt_token.encode()).hexdigest()[:16]`. -/
def tokenHash16 (token : List Char) : List Char := (sha256Hex (utf8Bytes token)).take 16

/-- Python `tool_types or 'all'`: `None` and the empty string are falsy. -/
def canonTypes : Option (List Char) → List Char
  | none => pstr "all"
  | some s => if s = [] then pstr "all" else s

/-- `ToolCache._make_key`: `f"{token_hash}:{tool_types or 'all'}"`. -/
def makeKey (token : List Char) (toolTypes : Option (List Char)) : List Char :=
  tokenHash16 token ++ ':' :: canonTypes toolTypes

/-- The state of a `ToolCache` instance: the TTL configuration value and the
`_cache` dict mapping keys to `(tools, timestamp)` pairs.  The value type is
a parameter, as the Python cache is value-agnostic (`Any`); the server
instantiates it with tool catalogs. -/
structure ToolCache (α : Type) where
  ttl_seconds : Int
  cache : List (List Char × (α × Int))

/-- `ToolCache.get`: computes the key; absent if no entry; evicts and
returns absent if `now - timestamp > ttl_seconds`; else the stored value.
Returns the result together with the (possibly evicted) cache state. -/
def ToolCache.get {α : Type} (c : ToolCache α) (token : List Char)
    (toolTypes : Option (List Char)) (now : Int) : Option α × ToolCache α :=
  match dictGet c.cache (makeKey token toolTypes) with
  | none => (none, c)
  | some (tools, timestamp) =>
    if now - timestamp > c.ttl_seconds then
      (none, { c with cache := dictDel c.cache (makeKey token toolTypes) })
    else
      (some tools, c)

/-- `ToolCache.set`: unconditionally store `(tools, now)` under the key. -/
def ToolCache.set {α : Type} (c : ToolCache α) (token : List Char)
    (toolTypes : Option (List Char)) (tools : α) (now : Int) : ToolCache α :=
  { c with cache := dictSet c.cache (makeKey token toolTypes) (tools, now) }

/-- `ToolCache.invalidate`: with a filter, pop exactly that key; with
`None`, delete every key starting with `f"{token_hash}:"`.  (The source
collects the matching keys and deletes each; on a dict, whose keys are
unique, that is the same as filtering them all out.) -/
def ToolCache.invalidate {α : Type} (c : ToolCache α) (token : List Char)
    (toolTypes : Option (List Char)) : ToolCache α :=
  match toolTypes with
  | some _ => { c with cache := dictDel c.cache (makeKey token toolTypes) }
  | none =>
    { c with cache := dictDropAll (fun k => startsWithL k (tokenHash16 token ++ [':'])) c.cache }

/-- `ToolCache.clear`. -/
def ToolCache.clear {α : Type} (c : ToolCache α) : ToolCache α :=
  { c with cache := [] }

/-- A fresh cache, as `ToolCache(ttl_seconds)` constructs one. -/
def emptyCache (α : Type) (ttl : Int) : ToolCache α := ⟨ttl, []⟩

/-! ## Basic lemmas about the string and dict model -/

theorem startsWithL_iff (t p : List Char) :
    startsWithL t p = true ↔ ∃ r, t = p ++ r := by
  induction p generalizing t with
  | nil =>
    simp [startsWithL]
  | cons p0 p' ih =>
    cases t with
    | nil => simp [startsWithL]
    | cons c t' =>
      simp only [startsWithL, Bool.and_eq_true, beq_iff_eq, ih, List.cons_append,
        List.cons.injEq]
      constructor
      · rintro ⟨rfl, r, rfl⟩
        exact ⟨r, rfl, rfl⟩
      · rintro ⟨r, rfl, rfl⟩
        exact ⟨rfl, r, rfl⟩

theorem containsSub_iff (s t : List Char) :
    containsSub s t = true ↔ ∃ p q, s = p ++ t ++ q := by
  induction s with
  | nil =>
    simp only [containsSub, Bool.or_false, startsWithL_iff]
    constructor
    · rintro ⟨r, h⟩
      exact ⟨[], r, by simpa using h⟩
    · rintro ⟨p, q, h⟩
      exact ⟨q ++ p, by
        rcases List.append_eq_nil.mp h.symm with ⟨h1, h2⟩
        rcases List.append_eq_nil.mp h1 with ⟨rfl, rfl⟩
        simp [h2]⟩
  | cons c s' ih =>
    simp only [containsSub, Bool.or_eq_true, startsWithL_iff, ih]
    constructor
    · rintro (⟨r, h⟩ | ⟨p, q, h⟩)
      · exact ⟨[], r, by simpa using h⟩
      · exact ⟨c :: p, q, by simp [h]⟩
    · rintro ⟨p, q, h⟩
      cases p with
      | nil => exact Or.inl ⟨q, by simpa using h⟩
      | cons p0 p' =>
        rcases List.cons.injEq .. ▸ h with ⟨rfl, h2⟩
        exact Or.inr ⟨p', q, h2⟩

theorem dictGet_dictSet_self {α : Type} (d : List (List Char × α)) (k : List Char) (v : α) :
    dictGet (dictSet d k v) k = some v := by
  induction d with
  | nil => simp [dictSet, dictGet]
  | cons kv rest ih =>
    obtain ⟨k0, v0⟩ := kv
    by_cases h : k0 = k
    · simp [dictSet, dictGet, h]
    · simp [dictSet, dictGet, h, ih]

theorem dictGet_dictSet_ne {α : Type} (d : List (List Char × α)) (k k' : List Char) (v : α)
    (h : k' ≠ k) : dictGet (dictSet d k v) k' = dictGet d k' := by
  have h' : ¬ k = k' := fun e => h e.symm
  induction d with
  | nil => simp [dictSet, dictGet, h']
  | cons kv rest ih =>
    obtain ⟨k0, v0⟩ := kv
    by_cases h0 : k0 = k
    · subst h0
      simp [dictSet, dictGet, h']
    · by_cases h1 : k0 = k'
      · subst h1
        simp [dictSet, dictGet, h0]
      · simp [dictSet, dictGet, h0, h1, ih]

theorem dictGet_dictDel_ne {α : Type} (d : List (List Char × α)) (k k' : List Char)
    (h : k' ≠ k) : dictGet (dictDel d k) k' = dictGet d k' := by
  have h' : ¬ k = k' := fun e => h e.symm
  induction d with
  | nil => simp [dictDel, dictGet]
  | cons kv rest ih =>
    obtain ⟨k0, v0⟩ := kv
    by_cases h0 : k0 = k
    · subst h0
      simp [dictDel, dictGet, h']
    · by_cases h1 : k0 = k'
      · subst h1
        simp [dictDel, dictGet, h0]
      · simp [dictDel, dictGet, h0, h1, ih]

theorem dictGet_none_of_not_mem_keys {α : Type} (d : List (List Char × α)) (k : List Char)
    (h : k ∉ dictKeys d) : dictGet d k = none := by
  induction d with
  | nil => simp [dictGet]
  | cons kv rest ih =>
    obtain ⟨k0, v0⟩ := kv
    simp only [dictKeys, List.map_cons, List.mem_cons, not_or] at h
    simp only [dictGet, if_neg (fun e : k0 = k => h.1 e.symm)]
    exact ih h.2

theorem dictGet_dictDel_self {α : Type} (d : List (List Char × α)) (k : List Char)
    (hnd : (dictKeys d).Nodup) : dictGet (dictDel d k) k = none := by
  induction d with
  | nil => simp [dictDel, dictGet]
  | cons kv rest ih =>
    obtain ⟨k0, v0⟩ := kv
    simp only [dictKeys, List.map_cons, List.nodup_cons] at hnd
    obtain ⟨hk0, hrest⟩ := hnd
    by_cases h0 : k0 = k
    · subst h0
      simp only [dictDel, if_pos rfl]
      exact dictGet_none_of_not_mem_keys rest k0 hk0
    · simp only [dictDel, if_neg h0, dictGet, if_neg h0]
      exact ih hrest

theorem dictGet_dropAll_dropped {α : Type} (pf : List Char → Bool)
    (d : List (List Char × α)) (k : List Char) (h : pf k = true) :
    dictGet (dictDropAll pf d) k = none := by
  induction d with
  | nil => simp [dictDropAll, dictGet]
  | cons kv rest ih =>
    obtain ⟨k0, v0⟩ := kv
    by_cases h0 : pf k0 = true
    · simp only [dictDropAll, if_pos h0]
      exact ih
    · have hne : ¬ k0 = k := fun e => h0 (by rw [e]; exact h)
      simp only [dictDropAll, if_neg h0, dictGet, if_neg hne]
      exact ih

theorem dictGet_dropAll_kept {α : Type} (pf : List Char → Bool)
    (d : List (List Char × α)) (k : List Char) (h : pf k = false) :
    dictGet (dictDropAll pf d) k = dictGet d k := by
  induction d with
  | nil => simp [dictDropAll, dictGet]
  | cons kv rest ih =>
    obtain ⟨k0, v0⟩ := kv
    by_cases h0 : pf k0 = true
    · have hne : ¬ k0 = k := fun e => by rw [e, h] at h0; exact Bool.noConfusion h0
      simp only [dictDropAll, if_pos h0, dictGet, if_neg hne]
      exact ih
    · simp only [dictDropAll, if_neg h0, dictGet]
      by_cases h1 : k0 = k
      · simp [h1]
      · simp [h1, ih]

theorem dropAll_keys_dropped {α : Type} (pf : List Char → Bool)
    (d : List (List Char × α)) (k : List Char)
    (hk : k ∈ dictKeys (dictDropAll pf d)) : pf k = false ∧ k ∈ dictKeys d := by
  induction d with
  | nil => simp [dictDropAll, dictKeys] at hk
  | cons kv rest ih =>
    obtain ⟨k0, v0⟩ := kv
    by_cases h0 : pf k0 = true
    · simp only [dictDropAll, if_pos h0] at hk
      obtain ⟨h1, h2⟩ := ih hk
      exact ⟨h1, List.mem_cons_of_mem k0 h2⟩
    · simp only [dictDropAll, if_neg h0, dictKeys, List.map_cons, List.mem_cons] at hk
      rcases hk with rfl | hk
      · exact ⟨Bool.eq_false_iff.mpr h0, List.mem_cons_self k (dictKeys rest)⟩
      · obtain ⟨h1, h2⟩ := ih hk
        exact ⟨h1, List.mem_cons_of_mem k0 h2⟩

/-! ## Structure of cache keys -/

theorem sha256Block_length (hs blk : List Nat) : (sha256Block hs blk).length = 8 := rfl

theorem foldl_sha256Block_length (l : List (List Nat)) (hs : List Nat) (h : hs.length = 8) :
    (l.foldl sha256Block hs).length = 8 := by
  induction l generalizing hs with
  | nil => exact h
  | cons blk rest ih => exact ih (sha256Block hs blk) (sha256Block_length hs blk)

theorem sha256Words_length (m : List Nat) : (sha256Words m).length = 8 :=
  foldl_sha256Block_length _ _ (by decide)

theorem hexFoldr_length (ws : List Nat) :
    (ws.foldr (fun w acc => wordHex w ++ acc) []).length = 8 * ws.length := by
  induction ws with
  | nil => rfl
  | cons w rest ih =>
    simp only [List.foldr_cons, List.length_append, ih, List.length_cons]
    have : (wordHex w).length = 8 := rfl
    omega

theorem sha256Hex_length (m : List Nat) : (sha256Hex m).length = 64 := by
  unfold sha256Hex
  rw [hexFoldr_length, sha256Words_length]

theorem tokenHash16_length (t : List Char) : (tokenHash16 t).length = 16 := by
  unfold tokenHash16
  rw [List.length_take, sha256Hex_length]
  decide

theorem hexDig_ne_colon (n : Nat) : hexDig n ≠ ':' := by
  unfold hexDig
  rcases Nat.lt_or_ge n 16 with h | h
  · interval_cases n <;> decide
  · rw [List.getD_eq_default _ _ (by simpa using h)]
    decide

theorem mem_hexFoldr {c : Char} (ws : List Nat)
    (h : c ∈ ws.foldr (fun w acc => wordHex w ++ acc) []) :
    ∃ w, c ∈ wordHex w := by
  induction ws with
  | nil => simp at h
  | cons w rest ih =>
    rcases List.mem_append.mp h with h1 | h2
    · exact ⟨w, h1⟩
    · exact ih h2

theorem tokenHash16_no_colon (t : List Char) : ':' ∉ tokenHash16 t := by
  intro hmem
  have h1 : ':' ∈ sha256Hex (utf8Bytes t) := List.take_subset 16 _ hmem
  obtain ⟨w, hw⟩ := mem_hexFoldr _ h1
  have : ∀ x ∈ wordHex w, x ≠ ':' := by
    intro x hx
    simp only [wordHex, List.mem_cons, List.not_mem_nil, or_false] at hx
    rcases hx with rfl | rfl | rfl | rfl | rfl | rfl | rfl | rfl <;> exact hexDig_ne_colon _
  exact this ':' hw rfl

theorem makeKey_eq_iff (t1 t2 : List Char) (f1 f2 : Option (List Char)) :
    makeKey t1 f1 = makeKey t2 f2 ↔
      tokenHash16 t1 = tokenHash16 t2 ∧ canonTypes f1 = canonTypes f2 := by
  constructor
  · intro h
    have hl : (tokenHash16 t1).length = (tokenHash16 t2).length := by
      rw [tokenHash16_length, tokenHash16_length]
    obtain ⟨h1, h2⟩ := List.append_inj h hl
    refine ⟨h1, ?_⟩
    injection h2
  · rintro ⟨h1, h2⟩
    unfold makeKey
    rw [h1, h2]

theorem startsWithL_makeKey_iff (t t' : List Char) (f : Option (List Char)) :
    startsWithL (makeKey t f) (tokenHash16 t' ++ [':']) = true ↔
      tokenHash16 t' = tokenHash16 t := by
  rw [startsWithL_iff]
  constructor
  · rintro ⟨r, hr⟩
    have h2 : (tokenHash16 t ++ [':']) ++ canonTypes f = (tokenHash16 t' ++ [':']) ++ r := by
      rw [← List.append_cons]
      exact hr
    have hl : (tokenHash16 t ++ [':']).length = (tokenHash16 t' ++ [':']).length := by
      rw [List.length_append, List.length_append, tokenHash16_length, tokenHash16_length]
    obtain ⟨h3, _⟩ := List.append_inj h2 hl
    exact (List.append_inj h3 (by rw [tokenHash16_length, tokenHash16_length])).1.symm
  · intro h
    refine ⟨canonTypes f, ?_⟩
    unfold makeKey
    rw [h, List.append_cons]

/-! ## JSON values (`workoflow_mcp/server.py` works on `json`-decoded data)

A Python exception escaping an expression is modelled with `Except PyErr`;
the server's `try/except` blocks then catch it where the source does.
Operations on the remote gateway are suspended network calls whose outcome
(the decoded response, or a raised exception with its `str(e)` message) is
an input of the embedding. -/

inductive Json : Type where
  | jnull : Json
  | jbool : Bool → Json
  | jnum : Int → Json
  | jstr : List Char → Json
  | jarr : List Json → Json
  | jobj : List (List Char × Json) → Json

/-- The Python exceptions our embedded fragments can raise. -/
inductive PyErr : Type where
  | attrError : PyErr
  | typeError : PyErr

/-- `str(e)` for a modelled exception (the exception's class name; the
claims never inspect these texts). -/
def pyErrMsg : PyErr → List Char
  | PyErr.attrError => pstr "AttributeError"
  | PyErr.typeError => pstr "TypeError"

/-- Total dict lookup with default, for fields of an object already known
to be a dict: `fields.get(k, dflt)`. -/
def jLookupD (fields : List (List Char × Json)) (k : List Char) (dflt : Json) : Json :=
  match dictGet fields k with
  | some v => v
  | none => dflt

/-- `x.get(k, dflt)` on an arbitrary value: raises `AttributeError` unless
`x` is a dict. -/
def pyGet (j : Json) (k : List Char) (dflt : Json) : Except PyErr Json :=
  match j with
  | Json.jobj fs => Except.ok (jLookupD fs k dflt)
  | _ => Except.error PyErr.attrError

/-- Python truthiness of a JSON-decoded value. -/
def truthy : Json → Bool
  | Json.jnull => false
  | Json.jbool b => b
  | Json.jnum n => n != 0
  | Json.jstr s => !s.isEmpty
  | Json.jarr xs => !xs.isEmpty
  | Json.jobj fs => !fs.isEmpty

/-- Does a JSON value have a top-level key (false for non-objects)? -/
def hasKey (j : Json) (k : List Char) : Bool :=
  match j with
  | Json.jobj fs => (dictGet fs k).isSome
  | _ => false

/-- Did an `Except` computation succeed? -/
def exceptOk {e a : Type} : Except e a → Bool
  | Except.ok _ => true
  | Except.error _ => false

/-- `set(x)` as used on `schema.get("required", [])`: the collection whose
membership is consulted.  Iterables yield their elements (for a string: its
characters; for a dict: its keys); non-iterables and unhashable elements
raise `TypeError`. -/
def requiredSet : Json → Except PyErr (List Json)
  | Json.jarr xs =>
    if xs.all (fun j => match j with | Json.jarr _ => false | Json.jobj _ => false | _ => true)
    then Except.ok xs else Except.error PyErr.typeError
  | Json.jstr s => Except.ok (s.map (fun c => Json.jstr [c]))
  | Json.jobj fs => Except.ok (fs.map (fun kv => Json.jstr kv.1))
  | _ => Except.error PyErr.typeError

/-- `name in required`: Python `==` between the string `name` and each
element (only equal strings compare equal). -/
def inReq (req : List Json) (name : List Char) : Bool :=
  req.any (fun j => match j with | Json.jstr s => s == name | _ => false)

/-! ## `workoflow_mcp/server.py`: display formatting -/

/-- The body of `_summarize_parameters`' loop for one `(name, prop)` item:

    prop_type = prop.get("type", "any")
    prop_desc = prop.get("description", "")
    is_required = name in required
    summary[name] = f"{type}{star}: {desc[:50]}..." if len(desc) > 50
                    else f"{type}{star}: {desc}"

Non-string `type`/`description` values (which Python would stringify) are
out of the modelled corner and mapped to an error; every claim involving
this transform concerns string-valued fields. -/
def summEntry (req : List Json) (name : List Char) (prop : Json) :
    Except PyErr (List Char × Json) :=
  match pyGet prop (pstr "type") (Json.jstr (pstr "any")) with
  | Except.error e => Except.error e
  | Except.ok ptype =>
    match pyGet prop (pstr "description") (Json.jstr []) with
    | Except.error e => Except.error e
    | Except.ok pdesc =>
      match ptype, pdesc with
      | Json.jstr ty, Json.jstr desc =>
        if desc.length > 50 then
          Except.ok (name, Json.jstr (ty ++ (if inReq req name then pstr "*" else [])
            ++ pstr ": " ++ desc.take 50 ++ pstr "..."))
        else
          Except.ok (name, Json.jstr (ty ++ (if inReq req name then pstr "*" else [])
            ++ pstr ": " ++ desc))
      | _, _ => Except.error PyErr.typeError

/-- `_summarize_parameters(schema)`. -/
def summarizeParameters (schema : Json) : Except PyErr (List (List Char × Json)) :=
  match pyGet schema (pstr "properties") (Json.jobj []) with
  | Except.error e => Except.error e
  | Except.ok properties =>
    match pyGet schema (pstr "required") (Json.jarr []) with
    | Except.error e => Except.error e
    | Except.ok reqJ =>
      match requiredSet reqJ with
      | Except.error e => Except.error e
      | Except.ok req =>
        match properties with
        | Json.jobj props => props.mapM (fun np => summEntry req np.1 np.2)
        | _ => Except.error PyErr.attrError

/-- One tool's entry in `_format_tools_for_display`. -/
def formatTool (tool : Json) : Except PyErr Json :=
  match pyGet tool (pstr "function") tool with
  | Except.error e => Except.error e
  | Except.ok func =>
    match pyGet func (pstr "name") (Json.jstr (pstr "unknown")) with
    | Except.error e => Except.error e
    | Except.ok name =>
      match pyGet func (pstr "description") (Json.jstr (pstr "No description")) with
      | Except.error e => Except.error e
      | Except.ok desc =>
        match pyGet func (pstr "parameters") (Json.jobj []) with
        | Except.error e => Except.error e
        | Except.ok params =>
          match summarizeParameters params with
          | Except.error e => Except.error e
          | Except.ok ps =>
            Except.ok (Json.jobj [(pstr "name", name), (pstr "description", desc),
              (pstr "parameters", Json.jobj ps)])

/-- `_format_tools_for_display(tools)`. -/
def formatToolsForDisplay (tools : List Json) : Except PyErr (List Json) :=
  tools.mapM formatTool

/-- `_get_tool_summary(tool)`: `tool.get("function", tool).get("name", "unknown")`. -/
def getToolSummary (tool : Json) : Except PyErr Json :=
  match pyGet tool (pstr "function") tool with
  | Except.error e => Except.error e
  | Except.ok func => pyGet func (pstr "name") (Json.jstr (pstr "unknown"))

/-! ## `workoflow_mcp/server.py`: the three public operations -/

/-- Outcome of `await client.fetch_tools(...)`: the decoded tools list, or
a raised exception with its message. -/
inductive FetchOutcome : Type where
  | ok : List Json → FetchOutcome
  | err : List Char → FetchOutcome

/-- Outcome of `await client.execute_tool(...)`: the decoded response
value, or a raised exception with its message. -/
inductive ExecOutcome : Type where
  | ok : Json → ExecOutcome
  | err : List Char → ExecOutcome

/-- Python `if not token:` on the result of `get_prompt_token()`. -/
def missingToken : Option (List Char) → Bool
  | none => true
  | some t => t.isEmpty

/-- Result of one `workoflow_list_tools` request: the response (`Except`
because the cached branch formats outside every `try`), the cache state
afterwards, and whether the gateway was consulted. -/
structure ListResult where
  output : Except PyErr Json
  cacheAfter : ToolCache (List Json)
  gatewayCalled : Bool

/-- `workoflow_list_tools`, with the request token, the process-wide
`TOOL_TYPES` string, the cache state, the current time and the gateway's
prospective fetch outcome as inputs. -/
def workoflowListTools (token : Option (List Char)) (toolTypes : List Char)
    (cache : ToolCache (List Json)) (now : Int) (fetch : FetchOutcome) : ListResult :=
  if missingToken token then
    ⟨Except.ok (Json.jobj [(pstr "error", Json.jstr (pstr "No authentication token provided")),
      (pstr "hint", Json.jstr (pstr "Add X-Prompt-Token header to your MCP client configuration. Get your token from /profile/ in Workoflow."))]),
     cache, false⟩
  else
    let tok := token.getD []
    match cache.get tok (some toolTypes) now with
    | (some cachedTools, cache1) =>
      ⟨(formatToolsForDisplay cachedTools).map (fun fmt =>
          Json.jobj [(pstr "tools", Json.jarr fmt),
            (pstr "count", Json.jnum cachedTools.length),
            (pstr "cached", Json.jbool true)]),
       cache1, false⟩
    | (none, cache1) =>
      match fetch with
      | FetchOutcome.ok tools =>
        let cache2 := cache1.set tok (some toolTypes) tools now
        match formatToolsForDisplay tools with
        | Except.ok fmt =>
          ⟨Except.ok (Json.jobj [(pstr "tools", Json.jarr fmt),
              (pstr "count", Json.jnum tools.length),
              (pstr "cached", Json.jbool false)]),
           cache2, true⟩
        | Except.error e =>
          ⟨Except.ok (Json.jobj [(pstr "error",
              Json.jstr (pstr "Failed to fetch tools: " ++ pyErrMsg e)),
              (pstr "hint", Json.jstr (pstr "Check if your token is valid and the Workoflow platform is reachable."))]),
           cache2, true⟩
      | FetchOutcome.err m =>
        ⟨Except.ok (Json.jobj [(pstr "error", Json.jstr (pstr "Failed to fetch tools: " ++ m)),
            (pstr "hint", Json.jstr (pstr "Check if your token is valid and the Workoflow platform is reachable."))]),
         cache1, true⟩

/-- Result of one `workoflow_refresh` request (this handler keeps all
fallible steps inside its `try`, so the response is always produced). -/
structure RefreshResult where
  output : Json
  cacheAfter : ToolCache (List Json)
  gatewayCalled : Bool

/-- `workoflow_refresh`. -/
def workoflowRefresh (token : Option (List Char)) (toolTypes : List Char)
    (cache : ToolCache (List Json)) (now : Int) (fetch : FetchOutcome) : RefreshResult :=
  if missingToken token then
    ⟨Json.jobj [(pstr "error", Json.jstr (pstr "No authentication token provided")),
      (pstr "hint", Json.jstr (pstr "Add X-Prompt-Token header to your MCP client configuration."))],
     cache, false⟩
  else
    let tok := token.getD []
    let cache1 := cache.invalidate tok none
    match fetch with
    | FetchOutcome.ok tools =>
      let cache2 := cache1.set tok (some toolTypes) tools now
      match tools.mapM getToolSummary with
      | Except.ok names =>
        ⟨Json.jobj [(pstr "message", Json.jstr (pstr "Tool cache refreshed successfully")),
          (pstr "tools_count", Json.jnum tools.length),
          (pstr "tools", Json.jarr names)], cache2, true⟩
      | Except.error e =>
        ⟨Json.jobj [(pstr "error", Json.jstr (pstr "Failed to refresh tools: " ++ pyErrMsg e)),
          (pstr "hint", Json.jstr (pstr "Check if your token is valid and the Workoflow platform is reachable."))],
         cache2, true⟩
    | FetchOutcome.err m =>
      ⟨Json.jobj [(pstr "error", Json.jstr (pstr "Failed to refresh tools: " ++ m)),
        (pstr "hint", Json.jstr (pstr "Check if your token is valid and the Workoflow platform is reachable."))],
       cache1, true⟩

/-- Result of one `workoflow_execute` request: the response value (the
dict passed to `json.dumps`, or on the success path the remote payload
itself) and whether the gateway was consulted. -/
structure ExecResult where
  output : Json
  gatewayCalled : Bool

/-- `workoflow_execute`, with the oracle `parse` standing for the outcome
of `json.loads(parameters)` (consulted only when `parameters` is nonempty,
as the source guards the call with `if parameters`). -/
def workoflowExecute (token : Option (List Char)) (toolName : List Char)
    (parameters : List Char) (parse : Except (List Char) Json)
    (exec : ExecOutcome) : ExecResult :=
  if missingToken token then
    ⟨Json.jobj [(pstr "error", Json.jstr (pstr "No authentication token provided")),
      (pstr "hint", Json.jstr (pstr "Add X-Prompt-Token header to your MCP client configuration."))],
     false⟩
  else
    let parsed : Except (List Char) Json :=
      if parameters.isEmpty then Except.ok (Json.jobj []) else parse
    match parsed with
    | Except.error e =>
      ⟨Json.jobj [(pstr "error", Json.jstr (pstr "Invalid JSON parameters: " ++ e)),
        (pstr "hint", Json.jstr (pstr "Ensure parameters is a valid JSON string."))], false⟩
    | Except.ok _params =>
      match exec with
      | ExecOutcome.ok result =>
        match result with
        | Json.jobj fs =>
          if truthy (jLookupD fs (pstr "success") Json.jnull) then
            ⟨jLookupD fs (pstr "result") (Json.jobj []), true⟩
          else
            ⟨Json.jobj [(pstr "error",
                jLookupD fs (pstr "message")
                  (jLookupD fs (pstr "error") (Json.jstr (pstr "Unknown error")))),
              (pstr "hint", jLookupD fs (pstr "hint")
                  (Json.jstr (pstr "Check the error message for details."))),
              (pstr "context", jLookupD fs (pstr "context") (Json.jobj []))], true⟩
        | _ =>
          ⟨Json.jobj [(pstr "error",
              Json.jstr (pstr "Tool execution failed: " ++ pyErrMsg PyErr.attrError)),
            (pstr "hint", Json.jstr (pstr "Check if the tool name is correct and parameters are valid."))],
           true⟩
      | ExecOutcome.err m =>
        ⟨Json.jobj [(pstr "error", Json.jstr (pstr "Tool execution failed: " ++ m)),
          (pstr "hint", Json.jstr (pstr "Check if the tool name is correct and parameters are valid."))],
         true⟩

/-! ## Well-formedness of gateway catalogs

The display transforms assume JSON-schema-shaped tool definitions (as the
spec's data model prescribes); these decidable predicates delimit the
inputs on which no modelled exception is raised. -/

/-- Is a JSON value a string? -/
def isJStr : Json → Bool
  | Json.jstr _ => true
  | _ => false

/-- One property definition whose `type`/`description` are strings (or
absent). -/
def wfPropJ : Json → Bool
  | Json.jobj pf =>
    isJStr (jLookupD pf (pstr "type") (Json.jstr (pstr "any")))
    && isJStr (jLookupD pf (pstr "description") (Json.jstr []))
  | _ => false

/-- A `properties` value that is an object of well-formed property
definitions. -/
def propsWf : Json → Bool
  | Json.jobj props => props.all (fun np => wfPropJ np.2)
  | _ => false

/-- A parameters schema acceptable to `_summarize_parameters`. -/
def wfSchemaJ : Json → Bool
  | Json.jobj fs =>
    propsWf (jLookupD fs (pstr "properties") (Json.jobj []))
    && exceptOk (requiredSet (jLookupD fs (pstr "required") (Json.jarr [])))
  | _ => false

/-- A `function` value that is an object with an acceptable schema. -/
def funcWf : Json → Bool
  | Json.jobj ffs => wfSchemaJ (jLookupD ffs (pstr "parameters") (Json.jobj []))
  | _ => false

/-- A tool definition acceptable to `_format_tools_for_display`. -/
def wfToolJ : Json → Bool
  | Json.jobj fs => funcWf (jLookupD fs (pstr "function") (Json.jobj fs))
  | _ => false

/-! ## Further cache lemmas -/

theorem ToolCache.get_fst_eq {α : Type} (c1 c2 : ToolCache α) (token : List Char)
    (f : Option (List Char)) (now : Int)
    (httl : c1.ttl_seconds = c2.ttl_seconds)
    (hl : dictGet c1.cache (makeKey token f) = dictGet c2.cache (makeKey token f)) :
    (c1.get token f now).1 = (c2.get token f now).1 := by
  unfold ToolCache.get
  rw [hl, httl]
  cases dictGet c2.cache (makeKey token f) with
  | none => rfl
  | some p =>
    obtain ⟨tools, ts⟩ := p
    by_cases hc : now - ts > c2.ttl_seconds
    · simp [hc]
    · simp [hc]

/-- The token-hash segment of the key for token `"a"` (the value of
`hashlib.sha256(b"a").hexdigest()[:16]`). -/
theorem tokenHash16_a : tokenHash16 (pstr "a") = pstr "ca978112ca1bbdca" := by decide

/-- The token-hash segment of the key for token `"b"`. -/
theorem tokenHash16_b : tokenHash16 (pstr "b") = pstr "3e23e8160039594a" := by decide

/-- Reading back right after a `set` whose key canonicalizes to the read
key (within the TTL window) returns the stored value. -/
theorem get_after_set_fresh {α : Type} (st : ToolCache α) (token : List Char)
    (f f' : Option (List Char)) (cat : α) (tset tget : Int)
    (hk : makeKey token f = makeKey token f')
    (httl : ¬ tget - tset > st.ttl_seconds) :
    ((st.set token f cat tset).get token f' tget).1 = some cat := by
  unfold ToolCache.get ToolCache.set
  dsimp only
  rw [← hk, dictGet_dictSet_self]
  dsimp only
  rw [if_neg httl]

/-! ## Claim C1: key isolation -/

/-- **C1, counterexample.**  The filter strings `""` and `"all"` are
distinct, yet `set(tokenA, "", catalog)` overwrites what
`get(tokenA, "all")` returns, because `_make_key` maps the falsy filter
`""` and the literal filter `"all"` to the same key.  Before the set,
`get(tokenA, "all")` returned the first catalog; afterwards it returns the
second. -/
theorem C1_counterexample :
    pstr "" ≠ pstr "all"
    ∧ (((emptyCache (List Json) 600).set (pstr "a") (some (pstr "all"))
          [Json.jbool true] 0).get (pstr "a") (some (pstr "all")) 0).1
        = some [Json.jbool true]
    ∧ ((((emptyCache (List Json) 600).set (pstr "a") (some (pstr "all"))
          [Json.jbool true] 0).set (pstr "a") (some (pstr "")) [] 0).get
          (pstr "a") (some (pstr "all")) 0).1 = some []
    ∧ ([Json.jbool true] : List Json) ≠ [] := by
  have hkey : makeKey (pstr "a") (some (pstr "")) = makeKey (pstr "a") (some (pstr "all")) := by
    unfold makeKey
    rw [show canonTypes (some (pstr "")) = canonTypes (some (pstr "all")) from by decide]
  refine ⟨by decide, ?_, ?_, by simp⟩
  · exact get_after_set_fresh _ _ _ _ _ _ _ rfl (by decide)
  · exact get_after_set_fresh _ _ _ _ _ _ _ hkey (by decide)

/-- **C1 (amended): key isolation.**  `set(tokenA, filterX, catalog)`
leaves `get(tokenA, filterY)` unchanged whenever the canonical forms of
the two filters (`None`/`""` ↦ `"all"`) differ, and leaves
`get(tokenB, filterX)` unchanged whenever the 16-hex-character digest
of `tokenB` differs from that of `tokenA` (distinct tokens give distinct
truncated digests except for SHA-256 prefix collisions, which the design
accepts; the original claim's bare `filterX ≠ filterY` fails — see the
counterexample). -/
theorem C1_key_isolation {α : Type} (st : ToolCache α) (tokenA tokenB : List Char)
    (filterX filterY : Option (List Char)) (cat : α) (tset tget : Int)
    (hfilters : canonTypes filterX ≠ canonTypes filterY)
    (hhash : tokenHash16 tokenB ≠ tokenHash16 tokenA) :
    ((st.set tokenA filterX cat tset).get tokenA filterY tget).1
        = (st.get tokenA filterY tget).1
    ∧ ((st.set tokenA filterX cat tset).get tokenB filterX tget).1
        = (st.get tokenB filterX tget).1 := by
  constructor
  · refine ToolCache.get_fst_eq _ _ _ _ _ rfl ?_
    refine dictGet_dictSet_ne _ _ _ _ ?_
    intro he
    exact hfilters (((makeKey_eq_iff tokenA tokenA filterY filterX).mp he).2).symm
  · refine ToolCache.get_fst_eq _ _ _ _ _ rfl ?_
    refine dictGet_dictSet_ne _ _ _ _ ?_
    intro he
    exact hhash ((makeKey_eq_iff tokenB tokenA filterX filterX).mp he).1

/-- Witness for C1 at concrete inputs (tokens `"a"`, `"b"`; filters
`"x"`, `"y"`). -/
theorem C1_key_isolation_witness :
    (canonTypes (some (pstr "x")) ≠ canonTypes (some (pstr "y"))
      ∧ tokenHash16 (pstr "b") ≠ tokenHash16 (pstr "a"))
    ∧ ((((emptyCache (List Json) 600).set (pstr "a") (some (pstr "x")) [] 0).get
          (pstr "a") (some (pstr "y")) 0).1
        = ((emptyCache (List Json) 600).get (pstr "a") (some (pstr "y")) 0).1
      ∧ (((emptyCache (List Json) 600).set (pstr "a") (some (pstr "x")) [] 0).get
          (pstr "b") (some (pstr "x")) 0).1
        = ((emptyCache (List Json) 600).get (pstr "b") (some (pstr "x")) 0).1) :=
  ⟨⟨by decide, by rw [tokenHash16_a, tokenHash16_b]; decide⟩,
   C1_key_isolation (emptyCache (List Json) 600) (pstr "a") (pstr "b")
     (some (pstr "x")) (some (pstr "y")) [] 0 0 (by decide)
     (by rw [tokenHash16_a, tokenHash16_b]; decide)⟩

/-! ## Claim C2: token non-recoverability -/

/-- **C2, counterexample.**  For the one-character token `"a"`, the Cache
Key is `"ca978112ca1bbdca:all"`, which contains the raw token `"a"` as a
substring (short tokens can appear inside their own hex digest, and any
token also reappears whenever it occurs in the filter segment). -/
theorem C2_counterexample :
    containsSub (makeKey (pstr "a") none) (pstr "a") = true
    ∧ makeKey (pstr "a") none = pstr "ca978112ca1bbdca:all" := by
  have hk : makeKey (pstr "a") none = pstr "ca978112ca1bbdca:all" := by
    unfold makeKey
    rw [tokenHash16_a]
    decide
  exact ⟨by rw [hk]; decide, hk⟩

/-- **C2 (amended): token non-recoverability.**  The Cache Key never
contains the raw token as a substring, provided the token is longer than
the 16-character hash segment, contains no `':'`, and does not occur in
the canonicalized filter segment (the key is built only from the digest
prefix and the filter, so such a token cannot appear anywhere; the
original unrestricted claim fails — see the counterexample). -/
theorem C2_token_nonrecoverable (token : List Char) (f : Option (List Char))
    (hlen : 16 < token.length) (hcolon : ':' ∉ token)
    (hfilter : containsSub (canonTypes f) token = false) :
    containsSub (makeKey token f) token = false := by
  rw [Bool.eq_false_iff]
  intro hc
  obtain ⟨p, q, hpq⟩ := (containsSub_iff _ _).mp hc
  rcases Nat.lt_or_ge p.length 17 with hp | hp
  · -- the occurrence would overlap the ':' at position 16
    have hple : p.length ≤ 16 := by omega
    have hd1 : (makeKey token f).drop p.length = token ++ q := by
      rw [hpq, List.append_assoc, List.drop_left]
    have hd2 : (makeKey token f).drop p.length
        = (tokenHash16 token).drop p.length ++ ':' :: canonTypes f := by
      unfold makeKey
      rw [List.drop_append_eq_append_drop, tokenHash16_length,
        Nat.sub_eq_zero_of_le hple, List.drop_zero]
    have hD : ((tokenHash16 token).drop p.length).length = 16 - p.length := by
      rw [List.length_drop, tokenHash16_length]
    have heq : token ++ q = (tokenHash16 token).drop p.length ++ ':' :: canonTypes f := by
      rw [← hd1, hd2]
    have ht : token = (token ++ q).take token.length := by rw [List.take_left]
    rw [heq, List.take_append_eq_append_take] at ht
    have h1 : ((tokenHash16 token).drop p.length).take token.length
        = (tokenHash16 token).drop p.length := List.take_of_length_le (by omega)
    obtain ⟨kk, hkk⟩ :
        ∃ kk, token.length - ((tokenHash16 token).drop p.length).length = kk + 1 :=
      ⟨token.length - ((tokenHash16 token).drop p.length).length - 1, by omega⟩
    rw [h1, hkk, List.take_succ_cons] at ht
    apply hcolon
    rw [ht]
    exact List.mem_append_right _ (List.mem_cons_self _ _)
  · -- the occurrence would lie inside the filter segment
    have hlen17 : (tokenHash16 token ++ [':']).length = 17 := by
      rw [List.length_append, tokenHash16_length]
      rfl
    have hd1 : (makeKey token f).drop 17 = canonTypes f := by
      unfold makeKey
      rw [← List.singleton_append, ← List.append_assoc, ← hlen17, List.drop_left]
    have hd2 : (makeKey token f).drop 17 = p.drop 17 ++ (token ++ q) := by
      rw [hpq, List.append_assoc, List.drop_append_eq_append_drop,
        Nat.sub_eq_zero_of_le hp, List.drop_zero]
    have hc2 : containsSub (canonTypes f) token = true := by
      rw [containsSub_iff]
      refine ⟨p.drop 17, q, ?_⟩
      rw [← hd1, hd2, List.append_assoc]
    rw [hfilter] at hc2
    exact Bool.noConfusion hc2

/-- Witness for C2 at a concrete input: a 17-character colon-free token
not occurring in the canonical filter `"all"`. -/
theorem C2_token_nonrecoverable_witness :
    (16 < (pstr "ABCDEFGHIJKLMNOPQ").length
      ∧ ':' ∉ pstr "ABCDEFGHIJKLMNOPQ"
      ∧ containsSub (canonTypes none) (pstr "ABCDEFGHIJKLMNOPQ") = false)
    ∧ containsSub (makeKey (pstr "ABCDEFGHIJKLMNOPQ") none) (pstr "ABCDEFGHIJKLMNOPQ") = false :=
  ⟨⟨by decide, by decide, by decide⟩,
   C2_token_nonrecoverable _ _ (by decide) (by decide) (by decide)⟩

/-! ## Claim C3: TTL expiry with lazy eviction -/

/-- **C3: TTL expiry with lazy eviction.**  After `set` at time `tset`, a
`get` at time `tget` with `tget - tset > ttl_seconds` returns absent and
deletes the entry (a direct inspection of the store afterwards finds no
entry under that key); with `tget - tset ≤ ttl_seconds` it returns the
stored catalog unchanged.  The `Nodup` hypothesis is the key-uniqueness
invariant every Python dict maintains. -/
theorem C3_ttl_expiry {α : Type} (st : ToolCache α) (token : List Char)
    (f : Option (List Char)) (cat : α) (tset tget : Int)
    (hnd : (dictKeys ((st.set token f cat tset).cache)).Nodup) :
    (tget - tset > st.ttl_seconds →
      ((st.set token f cat tset).get token f tget).1 = none
      ∧ dictGet (((st.set token f cat tset).get token f tget).2).cache
          (makeKey token f) = none)
    ∧ (tget - tset ≤ st.ttl_seconds →
      ((st.set token f cat tset).get token f tget).1 = some cat) := by
  constructor
  · intro hexp
    unfold ToolCache.get ToolCache.set
    dsimp only
    rw [dictGet_dictSet_self]
    dsimp only
    rw [if_pos hexp]
    exact ⟨rfl, dictGet_dictDel_self _ _ hnd⟩
  · intro hle
    exact get_after_set_fresh st token f f cat tset tget rfl (by omega)

/-- Witness for C3 at concrete inputs: TTL 600, an entry set at time 0 and
read at time 601 is gone. -/
theorem C3_ttl_expiry_witness :
    ((dictKeys (((emptyCache (List Json) 600).set (pstr "a") none [] 0).cache)).Nodup
      ∧ ((601 : Int) - 0 > (emptyCache (List Json) 600).ttl_seconds))
    ∧ ((((emptyCache (List Json) 600).set (pstr "a") none [] 0).get (pstr "a") none 601).1 = none
      ∧ dictGet ((((emptyCache (List Json) 600).set (pstr "a") none [] 0).get
          (pstr "a") none 601).2).cache (makeKey (pstr "a") none) = none) :=
  ⟨⟨by simp [ToolCache.set, emptyCache, dictSet, dictKeys], by decide⟩,
   (C3_ttl_expiry (emptyCache (List Json) 600) (pstr "a") none [] 0 601
      (by simp [ToolCache.set, emptyCache, dictSet, dictKeys])).1 (by decide)⟩

/-! ## Claim C4: bulk invalidation -/

/-- **C4: bulk invalidation.**  For a cache holding entries for
`(tokenA, "x")`, `(tokenA, "y")` and `(tokenB, "x")`,
`invalidate(tokenA, absent)` removes every key whose hash segment matches
`tokenA`'s hash — in particular both tokenA entries — and leaves the
tokenB entry untouched; `invalidate(tokenA, "x")` removes exactly that one
key.  The hypothesis that the two tokens' truncated digests differ is the
collision-freedom assumption the design documents (`tokenB ≠ tokenA` alone
cannot exclude a 64-bit SHA-256 prefix collision); `Nodup` is the dict
key-uniqueness invariant. -/
theorem C4_bulk_invalidation {α : Type} (st : ToolCache α) (tokenA tokenB : List Char)
    (eA1 eA2 eB : α × Int)
    (hhash : tokenHash16 tokenB ≠ tokenHash16 tokenA)
    (hnd : (dictKeys st.cache).Nodup)
    (_hA1 : dictGet st.cache (makeKey tokenA (some (pstr "x"))) = some eA1)
    (_hA2 : dictGet st.cache (makeKey tokenA (some (pstr "y"))) = some eA2)
    (hB : dictGet st.cache (makeKey tokenB (some (pstr "x"))) = some eB) :
    (dictGet ((st.invalidate tokenA none).cache) (makeKey tokenA (some (pstr "x"))) = none
      ∧ dictGet ((st.invalidate tokenA none).cache) (makeKey tokenA (some (pstr "y"))) = none
      ∧ (∀ k ∈ dictKeys ((st.invalidate tokenA none).cache),
          startsWithL k (tokenHash16 tokenA ++ [':']) = false)
      ∧ dictGet ((st.invalidate tokenA none).cache) (makeKey tokenB (some (pstr "x"))) = some eB)
    ∧ (dictGet ((st.invalidate tokenA (some (pstr "x"))).cache)
          (makeKey tokenA (some (pstr "x"))) = none
      ∧ ∀ k, k ≠ makeKey tokenA (some (pstr "x")) →
          dictGet ((st.invalidate tokenA (some (pstr "x"))).cache) k = dictGet st.cache k) := by
  constructor
  · refine ⟨?_, ?_, ?_, ?_⟩
    · exact dictGet_dropAll_dropped _ _ _
        ((startsWithL_makeKey_iff tokenA tokenA (some (pstr "x"))).mpr rfl)
    · exact dictGet_dropAll_dropped _ _ _
        ((startsWithL_makeKey_iff tokenA tokenA (some (pstr "y"))).mpr rfl)
    · intro k hk
      exact (dropAll_keys_dropped _ _ _ hk).1
    · rw [show dictGet ((st.invalidate tokenA none).cache) (makeKey tokenB (some (pstr "x")))
          = dictGet st.cache (makeKey tokenB (some (pstr "x"))) from
            dictGet_dropAll_kept _ _ _ (by
              rw [Bool.eq_false_iff]
              intro h
              exact hhash ((startsWithL_makeKey_iff tokenB tokenA (some (pstr "x"))).mp h).symm)]
      exact hB
  · constructor
    · exact dictGet_dictDel_self _ _ hnd
    · intro k hk
      exact dictGet_dictDel_ne _ _ _ hk

/-- Witness for C4 at a concrete store with exactly the three scenario
entries (tokens `"a"`, `"b"`). -/
theorem C4_bulk_invalidation_witness :
    (tokenHash16 (pstr "b") ≠ tokenHash16 (pstr "a")
      ∧ (dictKeys (⟨600, [(makeKey (pstr "a") (some (pstr "x")), ([], 0)),
          (makeKey (pstr "a") (some (pstr "y")), ([Json.jnull], 0)),
          (makeKey (pstr "b") (some (pstr "x")), ([], 5))]⟩ : ToolCache (List Json)).cache).Nodup)
    ∧ (dictGet (((⟨600, [(makeKey (pstr "a") (some (pstr "x")), ([], 0)),
          (makeKey (pstr "a") (some (pstr "y")), ([Json.jnull], 0)),
          (makeKey (pstr "b") (some (pstr "x")), ([], 5))]⟩ : ToolCache (List Json)).invalidate
            (pstr "a") none).cache) (makeKey (pstr "b") (some (pstr "x"))) = some ([], 5)
        ∧ dictGet (((⟨600, [(makeKey (pstr "a") (some (pstr "x")), ([], 0)),
          (makeKey (pstr "a") (some (pstr "y")), ([Json.jnull], 0)),
          (makeKey (pstr "b") (some (pstr "x")), ([], 5))]⟩ : ToolCache (List Json)).invalidate
            (pstr "a") none).cache) (makeKey (pstr "a") (some (pstr "x"))) = none) :=
  ⟨⟨by rw [tokenHash16_a, tokenHash16_b]; decide,
    by simp only [dictKeys, List.map, makeKey, tokenHash16_a, tokenHash16_b]; decide⟩,
   ⟨((C4_bulk_invalidation _ (pstr "a") (pstr "b") ([], 0) ([Json.jnull], 0) ([], 5)
        (by rw [tokenHash16_a, tokenHash16_b]; decide)
        (by simp only [dictKeys, List.map, makeKey, tokenHash16_a, tokenHash16_b]; decide)
        (by simp only [dictGet]; rw [if_pos trivial])
        (by simp only [makeKey, tokenHash16_a, tokenHash16_b]; rfl)
        (by simp only [makeKey, tokenHash16_a, tokenHash16_b]; rfl)).1).2.2.2,
    ((C4_bulk_invalidation _ (pstr "a") (pstr "b") ([], 0) ([Json.jnull], 0) ([], 5)
        (by rw [tokenHash16_a, tokenHash16_b]; decide)
        (by simp only [dictKeys, List.map, makeKey, tokenHash16_a, tokenHash16_b]; decide)
        (by simp only [dictGet]; rw [if_pos trivial])
        (by simp only [makeKey, tokenHash16_a, tokenHash16_b]; rfl)
        (by simp only [makeKey, tokenHash16_a, tokenHash16_b]; rfl)).1).1⟩⟩

/-! ## Formatting succeeds on well-formed catalogs -/

theorem mapM_ok_of_all {α β : Type} (f : α → Except PyErr β) (l : List α)
    (h : ∀ x ∈ l, ∃ y, f x = Except.ok y) : ∃ ys, l.mapM f = Except.ok ys := by
  induction l with
  | nil => exact ⟨[], rfl⟩
  | cons a rest ih =>
    obtain ⟨y, hy⟩ := h a (List.mem_cons_self a rest)
    obtain ⟨ys, hys⟩ := ih (fun x hx => h x (List.mem_cons_of_mem a hx))
    refine ⟨y :: ys, ?_⟩
    rw [List.mapM_cons, hy, hys]
    rfl

theorem isJStr_exists (j : Json) (h : isJStr j = true) : ∃ s, j = Json.jstr s := by
  cases j with
  | jstr s => exact ⟨s, rfl⟩
  | jnull => exact Bool.noConfusion h
  | jbool b => exact Bool.noConfusion h
  | jnum n => exact Bool.noConfusion h
  | jarr xs => exact Bool.noConfusion h
  | jobj fs => exact Bool.noConfusion h

theorem propsWf_exists (j : Json) (h : propsWf j = true) :
    ∃ props, j = Json.jobj props ∧ props.all (fun np => wfPropJ np.2) = true := by
  cases j with
  | jobj props => exact ⟨props, rfl, h⟩
  | jnull => exact Bool.noConfusion h
  | jbool b => exact Bool.noConfusion h
  | jnum n => exact Bool.noConfusion h
  | jstr s => exact Bool.noConfusion h
  | jarr xs => exact Bool.noConfusion h

theorem funcWf_exists (j : Json) (h : funcWf j = true) :
    ∃ ffs, j = Json.jobj ffs
      ∧ wfSchemaJ (jLookupD ffs (pstr "parameters") (Json.jobj [])) = true := by
  cases j with
  | jobj ffs => exact ⟨ffs, rfl, h⟩
  | jnull => exact Bool.noConfusion h
  | jbool b => exact Bool.noConfusion h
  | jnum n => exact Bool.noConfusion h
  | jstr s => exact Bool.noConfusion h
  | jarr xs => exact Bool.noConfusion h

theorem exceptOk_exists {e a : Type} (x : Except e a) (h : exceptOk x = true) :
    ∃ v, x = Except.ok v := by
  cases x with
  | ok v => exact ⟨v, rfl⟩
  | error err => exact Bool.noConfusion h

theorem summEntry_ok (req : List Json) (name : List Char) (p : Json)
    (h : wfPropJ p = true) : ∃ y, summEntry req name p = Except.ok y := by
  cases p with
  | jobj pf =>
    rw [show wfPropJ (Json.jobj pf)
        = (isJStr (jLookupD pf (pstr "type") (Json.jstr (pstr "any")))
           && isJStr (jLookupD pf (pstr "description") (Json.jstr []))) from rfl,
      Bool.and_eq_true] at h
    obtain ⟨hty, hdesc⟩ := h
    obtain ⟨ty, hty'⟩ := isJStr_exists _ hty
    obtain ⟨desc, hdesc'⟩ := isJStr_exists _ hdesc
    unfold summEntry
    rw [show pyGet (Json.jobj pf) (pstr "type") (Json.jstr (pstr "any"))
        = Except.ok (jLookupD pf (pstr "type") (Json.jstr (pstr "any"))) from rfl]
    dsimp only
    rw [show pyGet (Json.jobj pf) (pstr "description") (Json.jstr [])
        = Except.ok (jLookupD pf (pstr "description") (Json.jstr [])) from rfl]
    dsimp only
    rw [hty', hdesc']
    dsimp only
    by_cases hlen : desc.length > 50
    · rw [if_pos hlen]; exact ⟨_, rfl⟩
    · rw [if_neg hlen]; exact ⟨_, rfl⟩
  | jnull => exact Bool.noConfusion h
  | jbool b => exact Bool.noConfusion h
  | jnum n => exact Bool.noConfusion h
  | jstr s => exact Bool.noConfusion h
  | jarr xs => exact Bool.noConfusion h

theorem summarizeParameters_ok (s : Json) (h : wfSchemaJ s = true) :
    ∃ out, summarizeParameters s = Except.ok out := by
  cases s with
  | jobj fs =>
    rw [show wfSchemaJ (Json.jobj fs)
        = (propsWf (jLookupD fs (pstr "properties") (Json.jobj []))
           && exceptOk (requiredSet (jLookupD fs (pstr "required") (Json.jarr [])))) from rfl,
      Bool.and_eq_true] at h
    obtain ⟨h1, h2⟩ := h
    obtain ⟨props, hprops, hall⟩ := propsWf_exists _ h1
    obtain ⟨req, hreq⟩ := exceptOk_exists _ h2
    unfold summarizeParameters
    rw [show pyGet (Json.jobj fs) (pstr "properties") (Json.jobj [])
        = Except.ok (jLookupD fs (pstr "properties") (Json.jobj [])) from rfl]
    dsimp only
    rw [show pyGet (Json.jobj fs) (pstr "required") (Json.jarr [])
        = Except.ok (jLookupD fs (pstr "required") (Json.jarr [])) from rfl]
    dsimp only
    rw [hreq]
    dsimp only
    rw [hprops]
    dsimp only
    apply mapM_ok_of_all
    intro np hnp
    exact summEntry_ok req np.1 np.2 (List.all_eq_true.mp hall np hnp)
  | jnull => exact Bool.noConfusion h
  | jbool b => exact Bool.noConfusion h
  | jnum n => exact Bool.noConfusion h
  | jstr s => exact Bool.noConfusion h
  | jarr xs => exact Bool.noConfusion h

theorem formatTool_ok (t : Json) (h : wfToolJ t = true) :
    ∃ j, formatTool t = Except.ok j := by
  cases t with
  | jobj fs =>
    obtain ⟨ffs, hffs, hschema⟩ := funcWf_exists (jLookupD fs (pstr "function") (Json.jobj fs)) h
    obtain ⟨ps, hps⟩ := summarizeParameters_ok _ hschema
    unfold formatTool
    rw [show pyGet (Json.jobj fs) (pstr "function") (Json.jobj fs)
        = Except.ok (jLookupD fs (pstr "function") (Json.jobj fs)) from rfl, hffs]
    dsimp only
    rw [show pyGet (Json.jobj ffs) (pstr "name") (Json.jstr (pstr "unknown"))
        = Except.ok (jLookupD ffs (pstr "name") (Json.jstr (pstr "unknown"))) from rfl]
    dsimp only
    rw [show pyGet (Json.jobj ffs) (pstr "description") (Json.jstr (pstr "No description"))
        = Except.ok (jLookupD ffs (pstr "description") (Json.jstr (pstr "No description"))) from rfl]
    dsimp only
    rw [show pyGet (Json.jobj ffs) (pstr "parameters") (Json.jobj [])
        = Except.ok (jLookupD ffs (pstr "parameters") (Json.jobj [])) from rfl]
    dsimp only
    rw [hps]
    exact ⟨_, rfl⟩
  | jnull => exact Bool.noConfusion h
  | jbool b => exact Bool.noConfusion h
  | jnum n => exact Bool.noConfusion h
  | jstr s => exact Bool.noConfusion h
  | jarr xs => exact Bool.noConfusion h

theorem getToolSummary_ok (t : Json) (h : wfToolJ t = true) :
    ∃ s, getToolSummary t = Except.ok s := by
  cases t with
  | jobj fs =>
    obtain ⟨ffs, hffs, _⟩ := funcWf_exists (jLookupD fs (pstr "function") (Json.jobj fs)) h
    unfold getToolSummary
    rw [show pyGet (Json.jobj fs) (pstr "function") (Json.jobj fs)
        = Except.ok (jLookupD fs (pstr "function") (Json.jobj fs)) from rfl, hffs]
    exact ⟨_, rfl⟩
  | jnull => exact Bool.noConfusion h
  | jbool b => exact Bool.noConfusion h
  | jnum n => exact Bool.noConfusion h
  | jstr s => exact Bool.noConfusion h
  | jarr xs => exact Bool.noConfusion h

theorem formatToolsForDisplay_ok (tools : List Json) (h : tools.all wfToolJ = true) :
    ∃ fmt, formatToolsForDisplay tools = Except.ok fmt :=
  mapM_ok_of_all _ _ (fun t ht => formatTool_ok t (List.all_eq_true.mp h t ht))

theorem toolSummaries_ok (tools : List Json) (h : tools.all wfToolJ = true) :
    ∃ names, tools.mapM getToolSummary = Except.ok names :=
  mapM_ok_of_all _ _ (fun t ht => getToolSummary_ok t (List.all_eq_true.mp h t ht))

/-! ## Branch behaviour of `workoflow_list_tools` -/

theorem missingToken_false (tok : List Char) (htok : tok ≠ []) :
    missingToken (some tok) = false := by
  cases tok with
  | nil => exact absurd rfl htok
  | cons c rest => rfl

theorem get_ttl_eq {α : Type} (st : ToolCache α) (token : List Char)
    (f : Option (List Char)) (now : Int) :
    ((st.get token f now).2).ttl_seconds = st.ttl_seconds := by
  unfold ToolCache.get
  cases hdg : dictGet st.cache (makeKey token f) with
  | none => rfl
  | some p =>
    obtain ⟨tools, ts⟩ := p
    by_cases hc : now - ts > st.ttl_seconds
    · simp [hc]
    · simp [hc]

/-- `get` right after `set` under the same key within the TTL window hits
and leaves the state unchanged. -/
theorem get_set_hit {α : Type} (st : ToolCache α) (token : List Char)
    (f : Option (List Char)) (cat : α) (tset tget : Int)
    (httl : ¬ tget - tset > st.ttl_seconds) :
    (st.set token f cat tset).get token f tget = (some cat, st.set token f cat tset) := by
  unfold ToolCache.get ToolCache.set
  dsimp only
  rw [dictGet_dictSet_self]
  dsimp only
  rw [if_neg httl]

theorem listTools_hit (tok toolTypes : List Char) (htok : tok ≠ [])
    (st st1 : ToolCache (List Json)) (now : Int) (fo : FetchOutcome)
    (tools fmt : List Json)
    (hget : st.get tok (some toolTypes) now = (some tools, st1))
    (hfmt : formatToolsForDisplay tools = Except.ok fmt) :
    workoflowListTools (some tok) toolTypes st now fo =
      ⟨Except.ok (Json.jobj [(pstr "tools", Json.jarr fmt),
          (pstr "count", Json.jnum tools.length),
          (pstr "cached", Json.jbool true)]), st1, false⟩ := by
  unfold workoflowListTools
  rw [if_neg (by rw [missingToken_false tok htok]; exact Bool.false_ne_true)]
  dsimp only [Option.getD]
  rw [hget]
  dsimp only
  rw [hfmt]
  rfl

theorem listTools_miss_ok (tok toolTypes : List Char) (htok : tok ≠ [])
    (st st1 : ToolCache (List Json)) (now : Int) (tools fmt : List Json)
    (hget : st.get tok (some toolTypes) now = (none, st1))
    (hfmt : formatToolsForDisplay tools = Except.ok fmt) :
    workoflowListTools (some tok) toolTypes st now (FetchOutcome.ok tools) =
      ⟨Except.ok (Json.jobj [(pstr "tools", Json.jarr fmt),
          (pstr "count", Json.jnum tools.length),
          (pstr "cached", Json.jbool false)]),
       st1.set tok (some toolTypes) tools now, true⟩ := by
  unfold workoflowListTools
  rw [if_neg (by rw [missingToken_false tok htok]; exact Bool.false_ne_true)]
  dsimp only [Option.getD]
  rw [hget]
  dsimp only
  rw [hfmt]

theorem listTools_miss_err (tok toolTypes : List Char) (htok : tok ≠ [])
    (st st1 : ToolCache (List Json)) (now : Int) (m : List Char)
    (hget : st.get tok (some toolTypes) now = (none, st1)) :
    workoflowListTools (some tok) toolTypes st now (FetchOutcome.err m) =
      ⟨Except.ok (Json.jobj [(pstr "error", Json.jstr (pstr "Failed to fetch tools: " ++ m)),
          (pstr "hint", Json.jstr (pstr "Check if your token is valid and the Workoflow platform is reachable."))]),
       st1, true⟩ := by
  unfold workoflowListTools
  rw [if_neg (by rw [missingToken_false tok htok]; exact Bool.false_ne_true)]
  dsimp only [Option.getD]
  rw [hget]

/-! ## Claim C5: listing cache semantics -/

/-- **C5: listing cache semantics.**  With a valid token: (a) on a cache
hit the response carries the cached catalog formatted for display with
`cached=true` and the gateway is not consulted; (b) on a miss with a
successful fetch the catalog is stored via `set` and returned formatted
with `cached=false`; (c) re-invoking the listing within the TTL window
after (b) yields `cached=true` with the identical formatted catalog,
without consulting the gateway.  (The catalog is well-formed per the
spec's Tool Definition data model, so the display transform succeeds.) -/
theorem C5_listing_semantics (tok toolTypes : List Char) (htok : tok ≠ [])
    (st : ToolCache (List Json)) (now now2 : Int) (fo fo2 : FetchOutcome)
    (tools : List Json) (hwf : tools.all wfToolJ = true) :
    ((st.get tok (some toolTypes) now).1 = some tools →
      ∃ fmt, formatToolsForDisplay tools = Except.ok fmt
        ∧ workoflowListTools (some tok) toolTypes st now fo =
            ⟨Except.ok (Json.jobj [(pstr "tools", Json.jarr fmt),
                (pstr "count", Json.jnum tools.length),
                (pstr "cached", Json.jbool true)]),
             (st.get tok (some toolTypes) now).2, false⟩)
    ∧ ((st.get tok (some toolTypes) now).1 = none →
      ∃ fmt, formatToolsForDisplay tools = Except.ok fmt
        ∧ workoflowListTools (some tok) toolTypes st now (FetchOutcome.ok tools) =
            ⟨Except.ok (Json.jobj [(pstr "tools", Json.jarr fmt),
                (pstr "count", Json.jnum tools.length),
                (pstr "cached", Json.jbool false)]),
             ((st.get tok (some toolTypes) now).2).set tok (some toolTypes) tools now, true⟩)
    ∧ ((st.get tok (some toolTypes) now).1 = none →
      ¬ now2 - now > st.ttl_seconds →
      ∃ fmt, formatToolsForDisplay tools = Except.ok fmt
        ∧ workoflowListTools (some tok) toolTypes
            (workoflowListTools (some tok) toolTypes st now (FetchOutcome.ok tools)).cacheAfter
            now2 fo2 =
            ⟨Except.ok (Json.jobj [(pstr "tools", Json.jarr fmt),
                (pstr "count", Json.jnum tools.length),
                (pstr "cached", Json.jbool true)]),
             (workoflowListTools (some tok) toolTypes st now (FetchOutcome.ok tools)).cacheAfter,
             false⟩) := by
  obtain ⟨fmt, hfmt⟩ := formatToolsForDisplay_ok tools hwf
  refine ⟨?_, ?_, ?_⟩
  · intro h1
    have hpair : st.get tok (some toolTypes) now
        = (some tools, (st.get tok (some toolTypes) now).2) := by rw [← h1]
    exact ⟨fmt, hfmt, listTools_hit tok toolTypes htok st _ now fo tools fmt hpair hfmt⟩
  · intro h1
    have hpair : st.get tok (some toolTypes) now
        = (none, (st.get tok (some toolTypes) now).2) := by rw [← h1]
    exact ⟨fmt, hfmt, listTools_miss_ok tok toolTypes htok st _ now tools fmt hpair hfmt⟩
  · intro h1 httl
    have hpair : st.get tok (some toolTypes) now
        = (none, (st.get tok (some toolTypes) now).2) := by rw [← h1]
    have hst1 : ((st.get tok (some toolTypes) now).2).ttl_seconds = st.ttl_seconds :=
      get_ttl_eq st tok (some toolTypes) now
    have hmiss := listTools_miss_ok tok toolTypes htok st _ now tools fmt hpair hfmt
    refine ⟨fmt, hfmt, ?_⟩
    rw [hmiss]
    dsimp only
    exact listTools_hit tok toolTypes htok _ _ now2 fo2 tools fmt
      (get_set_hit _ tok (some toolTypes) tools now now2 (by rw [hst1]; exact httl)) hfmt

/-- Witness for C5 at concrete inputs (token `"t"`, empty configured
filter, empty starting cache, TTL 600, the empty catalog). -/
theorem C5_listing_semantics_witness :
    ((pstr "t" ≠ []) ∧ ([] : List Json).all wfToolJ = true)
    ∧ ((((emptyCache (List Json) 600).get (pstr "t") (some (pstr "")) 0).1 = some [] →
        ∃ fmt, formatToolsForDisplay [] = Except.ok fmt
          ∧ workoflowListTools (some (pstr "t")) (pstr "") (emptyCache (List Json) 600) 0
              (FetchOutcome.err (pstr "boom")) =
              ⟨Except.ok (Json.jobj [(pstr "tools", Json.jarr fmt),
                  (pstr "count", Json.jnum (List.length ([] : List Json))),
                  (pstr "cached", Json.jbool true)]),
               (((emptyCache (List Json) 600).get (pstr "t") (some (pstr "")) 0)).2, false⟩)
      ∧ ((((emptyCache (List Json) 600).get (pstr "t") (some (pstr "")) 0)).1 = none →
        ∃ fmt, formatToolsForDisplay [] = Except.ok fmt
          ∧ workoflowListTools (some (pstr "t")) (pstr "") (emptyCache (List Json) 600) 0
              (FetchOutcome.ok []) =
              ⟨Except.ok (Json.jobj [(pstr "tools", Json.jarr fmt),
                  (pstr "count", Json.jnum (List.length ([] : List Json))),
                  (pstr "cached", Json.jbool false)]),
               ((((emptyCache (List Json) 600).get (pstr "t") (some (pstr "")) 0)).2).set
                 (pstr "t") (some (pstr "")) [] 0, true⟩)
      ∧ ((((emptyCache (List Json) 600).get (pstr "t") (some (pstr "")) 0)).1 = none →
        ¬ (1 : Int) - 0 > (emptyCache (List Json) 600).ttl_seconds →
        ∃ fmt, formatToolsForDisplay [] = Except.ok fmt
          ∧ workoflowListTools (some (pstr "t")) (pstr "")
              (workoflowListTools (some (pstr "t")) (pstr "") (emptyCache (List Json) 600) 0
                (FetchOutcome.ok [])).cacheAfter 1 (FetchOutcome.err (pstr "boom")) =
              ⟨Except.ok (Json.jobj [(pstr "tools", Json.jarr fmt),
                  (pstr "count", Json.jnum (List.length ([] : List Json))),
                  (pstr "cached", Json.jbool true)]),
               (workoflowListTools (some (pstr "t")) (pstr "") (emptyCache (List Json) 600) 0
                 (FetchOutcome.ok [])).cacheAfter, false⟩)) :=
  ⟨⟨by decide, by decide⟩,
   C5_listing_semantics (pstr "t") (pstr "") (by decide) (emptyCache (List Json) 600) 0 1
     (FetchOutcome.err (pstr "boom")) (FetchOutcome.err (pstr "boom")) [] (by decide)⟩

/-! ## Branch behaviour of `workoflow_refresh` -/

theorem refresh_fetch_ok (tok toolTypes : List Char) (htok : tok ≠ [])
    (st : ToolCache (List Json)) (now : Int) (tools : List Json) (names : List Json)
    (hnames : tools.mapM getToolSummary = Except.ok names) :
    workoflowRefresh (some tok) toolTypes st now (FetchOutcome.ok tools) =
      ⟨Json.jobj [(pstr "message", Json.jstr (pstr "Tool cache refreshed successfully")),
        (pstr "tools_count", Json.jnum tools.length),
        (pstr "tools", Json.jarr names)],
       (st.invalidate tok none).set tok (some toolTypes) tools now, true⟩ := by
  unfold workoflowRefresh
  rw [if_neg (by rw [missingToken_false tok htok]; exact Bool.false_ne_true)]
  dsimp only [Option.getD]
  rw [hnames]

theorem refresh_fetch_err (tok toolTypes : List Char) (htok : tok ≠ [])
    (st : ToolCache (List Json)) (now : Int) (m : List Char) :
    workoflowRefresh (some tok) toolTypes st now (FetchOutcome.err m) =
      ⟨Json.jobj [(pstr "error", Json.jstr (pstr "Failed to refresh tools: " ++ m)),
        (pstr "hint", Json.jstr (pstr "Check if your token is valid and the Workoflow platform is reachable."))],
       st.invalidate tok none, true⟩ := by
  unfold workoflowRefresh
  rw [if_neg (by rw [missingToken_false tok htok]; exact Bool.false_ne_true)]
  rfl

/-- After a full-token invalidation no key for that token remains. -/
theorem invalidate_all_clears (st : ToolCache (List Json)) (tok : List Char)
    (f : Option (List Char)) :
    dictGet ((st.invalidate tok none).cache) (makeKey tok f) = none := by
  unfold ToolCache.invalidate
  dsimp only
  exact dictGet_dropAll_dropped _ _ _ ((startsWithL_makeKey_iff tok tok f).mpr rfl)

/-- A `get` for the invalidated token always misses afterwards. -/
theorem get_after_invalidate_all (st : ToolCache (List Json)) (tok : List Char)
    (f : Option (List Char)) (now : Int) :
    ((st.invalidate tok none).get tok f now).1 = none := by
  unfold ToolCache.get
  rw [invalidate_all_clears st tok f]

/-! ## Claim C6: refresh orchestration -/

/-- **C6: refresh orchestration.**  With a valid token: the operation
first wipes every cache entry for the caller's token (all filter
variants), then consults the gateway regardless of that invalidation's
outcome; on success it stores the fetched catalog over the invalidated
state and returns a structured summary with the tool count and the tool
names; on failure it returns a structured error and the cache stays
invalidated. -/
theorem C6_refresh_orchestration (tok toolTypes : List Char) (htok : tok ≠ [])
    (st : ToolCache (List Json)) (now : Int) (fo : FetchOutcome)
    (tools : List Json) (m : List Char) (hwf : tools.all wfToolJ = true) :
    (∀ f, dictGet ((st.invalidate tok none).cache) (makeKey tok f) = none)
    ∧ (workoflowRefresh (some tok) toolTypes st now fo).gatewayCalled = true
    ∧ (∃ names, tools.mapM getToolSummary = Except.ok names
        ∧ workoflowRefresh (some tok) toolTypes st now (FetchOutcome.ok tools) =
            ⟨Json.jobj [(pstr "message", Json.jstr (pstr "Tool cache refreshed successfully")),
              (pstr "tools_count", Json.jnum tools.length),
              (pstr "tools", Json.jarr names)],
             (st.invalidate tok none).set tok (some toolTypes) tools now, true⟩)
    ∧ workoflowRefresh (some tok) toolTypes st now (FetchOutcome.err m) =
        ⟨Json.jobj [(pstr "error", Json.jstr (pstr "Failed to refresh tools: " ++ m)),
          (pstr "hint", Json.jstr (pstr "Check if your token is valid and the Workoflow platform is reachable."))],
         st.invalidate tok none, true⟩ := by
  refine ⟨fun f => invalidate_all_clears st tok f, ?_, ?_, ?_⟩
  · unfold workoflowRefresh
    rw [if_neg (by rw [missingToken_false tok htok]; exact Bool.false_ne_true)]
    dsimp only [Option.getD]
    cases fo with
    | ok tl =>
      dsimp only
      cases htl : tl.mapM getToolSummary with
      | ok names => rfl
      | error e => rfl
    | err mm => rfl
  · obtain ⟨names, hnames⟩ := toolSummaries_ok tools hwf
    exact ⟨names, hnames, refresh_fetch_ok tok toolTypes htok st now tools names hnames⟩
  · exact refresh_fetch_err tok toolTypes htok st now m

/-- Witness for C6 at concrete inputs. -/
theorem C6_refresh_orchestration_witness :
    ((pstr "t" ≠ []) ∧ ([] : List Json).all wfToolJ = true)
    ∧ ((∀ f, dictGet (((emptyCache (List Json) 600).invalidate (pstr "t") none).cache)
          (makeKey (pstr "t") f) = none)
      ∧ (workoflowRefresh (some (pstr "t")) (pstr "") (emptyCache (List Json) 600) 0
          (FetchOutcome.ok [])).gatewayCalled = true
      ∧ (∃ names, ([] : List Json).mapM getToolSummary = Except.ok names
          ∧ workoflowRefresh (some (pstr "t")) (pstr "") (emptyCache (List Json) 600) 0
              (FetchOutcome.ok []) =
              ⟨Json.jobj [(pstr "message", Json.jstr (pstr "Tool cache refreshed successfully")),
                (pstr "tools_count", Json.jnum (List.length ([] : List Json))),
                (pstr "tools", Json.jarr names)],
               ((emptyCache (List Json) 600).invalidate (pstr "t") none).set
                 (pstr "t") (some (pstr "")) [] 0, true⟩)
      ∧ workoflowRefresh (some (pstr "t")) (pstr "") (emptyCache (List Json) 600) 0
            (FetchOutcome.err (pstr "down")) =
          ⟨Json.jobj [(pstr "error", Json.jstr (pstr "Failed to refresh tools: " ++ pstr "down")),
            (pstr "hint", Json.jstr (pstr "Check if your token is valid and the Workoflow platform is reachable."))],
           (emptyCache (List Json) 600).invalidate (pstr "t") none, true⟩) :=
  ⟨⟨by decide, by decide⟩,
   C6_refresh_orchestration (pstr "t") (pstr "") (by decide) (emptyCache (List Json) 600) 0
     (FetchOutcome.ok []) [] (pstr "down") (by decide)⟩

/-! ## Claim C10: refresh is not atomic on fetch failure -/

/-- **C10: refresh is not atomic on error.**  If the fetch fails, the
refresh returns a structured error, but the caller's cache entries were
already removed by the up-front invalidation and are not restored:
afterwards `get(token, filter)` misses for every filter and any read time,
so the next listing must fetch afresh. -/
theorem C10_refresh_not_atomic (tok toolTypes : List Char) (htok : tok ≠ [])
    (st : ToolCache (List Json)) (now : Int) (m : List Char) :
    workoflowRefresh (some tok) toolTypes st now (FetchOutcome.err m) =
      ⟨Json.jobj [(pstr "error", Json.jstr (pstr "Failed to refresh tools: " ++ m)),
        (pstr "hint", Json.jstr (pstr "Check if your token is valid and the Workoflow platform is reachable."))],
       st.invalidate tok none, true⟩
    ∧ ∀ (f : Option (List Char)) (now2 : Int),
        (((workoflowRefresh (some tok) toolTypes st now (FetchOutcome.err m)).cacheAfter).get
          tok f now2).1 = none := by
  have h1 := refresh_fetch_err tok toolTypes htok st now m
  refine ⟨h1, fun f now2 => ?_⟩
  rw [h1]
  exact get_after_invalidate_all st tok f now2

/-- Witness for C10 at concrete inputs. -/
theorem C10_refresh_not_atomic_witness :
    (pstr "t" ≠ [])
    ∧ (workoflowRefresh (some (pstr "t")) (pstr "") (emptyCache (List Json) 600) 0
          (FetchOutcome.err (pstr "down")) =
        ⟨Json.jobj [(pstr "error", Json.jstr (pstr "Failed to refresh tools: " ++ pstr "down")),
          (pstr "hint", Json.jstr (pstr "Check if your token is valid and the Workoflow platform is reachable."))],
         (emptyCache (List Json) 600).invalidate (pstr "t") none, true⟩
      ∧ ∀ (f : Option (List Char)) (now2 : Int),
          (((workoflowRefresh (some (pstr "t")) (pstr "") (emptyCache (List Json) 600) 0
            (FetchOutcome.err (pstr "down"))).cacheAfter).get (pstr "t") f now2).1 = none) :=
  ⟨by decide,
   C10_refresh_not_atomic (pstr "t") (pstr "") (by decide) (emptyCache (List Json) 600) 0
     (pstr "down")⟩

/-! ## Claim C7: execute parameter validation -/

/-- **C7, counterexample.**  The empty string is not valid JSON
(`json.loads("")` raises `JSONDecodeError`, modelled by the failing parse
oracle), yet an execute request with `parameters = ""` bypasses the parser
entirely — the source computes `json.loads(parameters) if parameters else
{}` — and invokes the gateway, returning the remote result instead of an
`InvalidParameters` error. -/
theorem C7_counterexample :
    (workoflowExecute (some (pstr "t")) (pstr "echo") (pstr "")
        (Except.error (pstr "Expecting value: line 1 column 1 (char 0)"))
        (ExecOutcome.ok (Json.jobj [(pstr "success", Json.jbool true),
          (pstr "result", Json.jstr (pstr "ran"))]))).gatewayCalled = true
    ∧ (workoflowExecute (some (pstr "t")) (pstr "echo") (pstr "")
        (Except.error (pstr "Expecting value: line 1 column 1 (char 0)"))
        (ExecOutcome.ok (Json.jobj [(pstr "success", Json.jbool true),
          (pstr "result", Json.jstr (pstr "ran"))]))).output = Json.jstr (pstr "ran") :=
  ⟨rfl, rfl⟩

/-- **C7 (amended): execute parameter validation.**  For every
authenticated execute request whose `parameters` argument is a *nonempty*
string that fails JSON parsing, the operation returns the structured
`InvalidParameters` error (with `error` and `hint` fields) and never
invokes the gateway.  (The empty string — also not valid JSON — bypasses
the parser and proceeds; see the counterexample.) -/
theorem C7_execute_param_validation (tok toolName parameters : List Char)
    (htok : tok ≠ []) (hne : parameters ≠ []) (e : List Char) (ex : ExecOutcome) :
    workoflowExecute (some tok) toolName parameters (Except.error e) ex =
      ⟨Json.jobj [(pstr "error", Json.jstr (pstr "Invalid JSON parameters: " ++ e)),
        (pstr "hint", Json.jstr (pstr "Ensure parameters is a valid JSON string."))],
       false⟩ := by
  have hpe : parameters.isEmpty = false := by
    cases parameters with
    | nil => exact absurd rfl hne
    | cons c rest => rfl
  unfold workoflowExecute
  rw [if_neg (by rw [missingToken_false tok htok]; exact Bool.false_ne_true)]
  dsimp only
  rw [if_neg (by rw [hpe]; exact Bool.false_ne_true)]

/-- Witness for C7 at concrete inputs. -/
theorem C7_execute_param_validation_witness :
    ((pstr "t" ≠ []) ∧ (pstr "not-json" ≠ []))
    ∧ workoflowExecute (some (pstr "t")) (pstr "echo") (pstr "not-json")
        (Except.error (pstr "Expecting value: line 1 column 1 (char 0)"))
        (ExecOutcome.ok (Json.jobj [])) =
      ⟨Json.jobj [(pstr "error", Json.jstr (pstr "Invalid JSON parameters: "
          ++ pstr "Expecting value: line 1 column 1 (char 0)")),
        (pstr "hint", Json.jstr (pstr "Ensure parameters is a valid JSON string."))],
       false⟩ :=
  ⟨⟨by decide, by decide⟩,
   C7_execute_param_validation (pstr "t") (pstr "echo") (pstr "not-json")
     (by decide) (by decide) (pstr "Expecting value: line 1 column 1 (char 0)")
     (ExecOutcome.ok (Json.jobj []))⟩

/-! ## Claim C9: display truncation boundary -/

/-- **C9: display truncation boundary.**  In the listing transform, a
parameter with string-valued `type` and `description` is summarized as
`"<type><optional *>: <description>"` where `*` is present exactly when
the name is in the schema's required set, and the description is replaced
by its first 50 characters plus an ellipsis exactly when its length
exceeds 50: a 51-character description is truncated and marked, a
50-character one shown in full.  `_summarize_parameters` applies this
entry transform to every property of the schema. -/
theorem C9_display_truncation (req : List Json) (name : List Char)
    (pf : List (List Char × Json)) (ty desc : List Char)
    (hty : jLookupD pf (pstr "type") (Json.jstr (pstr "any")) = Json.jstr ty)
    (hdesc : jLookupD pf (pstr "description") (Json.jstr []) = Json.jstr desc) :
    summEntry req name (Json.jobj pf)
      = Except.ok (name, Json.jstr
          (if desc.length > 50 then
            ty ++ (if inReq req name then pstr "*" else []) ++ pstr ": "
              ++ desc.take 50 ++ pstr "..."
          else
            ty ++ (if inReq req name then pstr "*" else []) ++ pstr ": " ++ desc))
    ∧ (desc.length = 51 →
        summEntry req name (Json.jobj pf)
          = Except.ok (name, Json.jstr (ty ++ (if inReq req name then pstr "*" else [])
              ++ pstr ": " ++ desc.take 50 ++ pstr "...")))
    ∧ (desc.length = 50 →
        summEntry req name (Json.jobj pf)
          = Except.ok (name, Json.jstr (ty ++ (if inReq req name then pstr "*" else [])
              ++ pstr ": " ++ desc)))
    ∧ (∀ (props : List (List Char × Json)) (rj : Json) (req2 : List Json),
        requiredSet rj = Except.ok req2 →
        summarizeParameters (Json.jobj [(pstr "properties", Json.jobj props),
            (pstr "required", rj)])
          = props.mapM (fun np => summEntry req2 np.1 np.2)) := by
  have hmain : summEntry req name (Json.jobj pf)
      = Except.ok (name, Json.jstr
          (if desc.length > 50 then
            ty ++ (if inReq req name then pstr "*" else []) ++ pstr ": "
              ++ desc.take 50 ++ pstr "..."
          else
            ty ++ (if inReq req name then pstr "*" else []) ++ pstr ": " ++ desc)) := by
    unfold summEntry
    rw [show pyGet (Json.jobj pf) (pstr "type") (Json.jstr (pstr "any"))
        = Except.ok (jLookupD pf (pstr "type") (Json.jstr (pstr "any"))) from rfl]
    dsimp only
    rw [show pyGet (Json.jobj pf) (pstr "description") (Json.jstr [])
        = Except.ok (jLookupD pf (pstr "description") (Json.jstr [])) from rfl]
    dsimp only
    rw [hty, hdesc]
    dsimp only
    by_cases hlen : desc.length > 50
    · rw [if_pos hlen, if_pos hlen]
    · rw [if_neg hlen, if_neg hlen]
  refine ⟨hmain, ?_, ?_, ?_⟩
  · intro h51
    rw [hmain, if_pos (by omega)]
  · intro h50
    rw [hmain, if_neg (by omega)]
  · intro props rj req2 hreq2
    unfold summarizeParameters
    rw [show pyGet (Json.jobj [(pstr "properties", Json.jobj props), (pstr "required", rj)])
          (pstr "properties") (Json.jobj [])
        = Except.ok (Json.jobj props) from rfl]
    dsimp only
    rw [show pyGet (Json.jobj [(pstr "properties", Json.jobj props), (pstr "required", rj)])
          (pstr "required") (Json.jarr [])
        = Except.ok rj from rfl]
    dsimp only
    rw [hreq2]

/-- Witness for C9: a required string parameter with a 51-character
description is truncated with the ellipsis. -/
theorem C9_display_truncation_witness :
    (jLookupD [(pstr "type", Json.jstr (pstr "string")),
        (pstr "description", Json.jstr (pstr "123456789012345678901234567890123456789012345678901"))]
        (pstr "type") (Json.jstr (pstr "any")) = Json.jstr (pstr "string")
      ∧ jLookupD [(pstr "type", Json.jstr (pstr "string")),
        (pstr "description", Json.jstr (pstr "123456789012345678901234567890123456789012345678901"))]
        (pstr "description") (Json.jstr [])
        = Json.jstr (pstr "123456789012345678901234567890123456789012345678901"))
    ∧ summEntry [Json.jstr (pstr "msg")] (pstr "msg")
        (Json.jobj [(pstr "type", Json.jstr (pstr "string")),
          (pstr "description", Json.jstr (pstr "123456789012345678901234567890123456789012345678901"))])
      = Except.ok (pstr "msg", Json.jstr
          (if (pstr "123456789012345678901234567890123456789012345678901").length > 50 then
            pstr "string" ++ (if inReq [Json.jstr (pstr "msg")] (pstr "msg") then pstr "*" else [])
              ++ pstr ": "
              ++ (pstr "123456789012345678901234567890123456789012345678901").take 50 ++ pstr "..."
          else
            pstr "string" ++ (if inReq [Json.jstr (pstr "msg")] (pstr "msg") then pstr "*" else [])
              ++ pstr ": " ++ pstr "123456789012345678901234567890123456789012345678901")) :=
  ⟨⟨rfl, rfl⟩,
   (C9_display_truncation [Json.jstr (pstr "msg")] (pstr "msg")
     [(pstr "type", Json.jstr (pstr "string")),
      (pstr "description", Json.jstr (pstr "123456789012345678901234567890123456789012345678901"))]
     (pstr "string") (pstr "123456789012345678901234567890123456789012345678901")
     rfl rfl).1⟩

/-! ## Claim C8: totality and error discipline of the public surface -/

theorem dictGet_mem {α : Type} (d : List (List Char × α)) (k : List Char) (v : α)
    (h : dictGet d k = some v) : (k, v) ∈ d := by
  induction d with
  | nil => exact Option.noConfusion h
  | cons kv rest ih =>
    obtain ⟨k0, v0⟩ := kv
    by_cases h0 : k0 = k
    · subst h0
      rw [show dictGet ((k0, v0) :: rest) k0 = some v0 from by simp [dictGet]] at h
      rw [Option.some.inj h]
      exact List.mem_cons_self _ _
    · rw [show dictGet ((k0, v0) :: rest) k = dictGet rest k from by
          simp only [dictGet, if_neg h0]] at h
      exact List.mem_cons_of_mem _ (ih h)

/-- A cache hit returns the value of an entry actually present in the
store. -/
theorem get_hit_entry {α : Type} (st : ToolCache α) (token : List Char)
    (f : Option (List Char)) (now : Int) (tools : α)
    (h : (st.get token f now).1 = some tools) :
    ∃ ts, dictGet st.cache (makeKey token f) = some (tools, ts) := by
  unfold ToolCache.get at h
  cases hdg : dictGet st.cache (makeKey token f) with
  | none => rw [hdg] at h; exact Option.noConfusion h
  | some p =>
    obtain ⟨tl, ts⟩ := p
    rw [hdg] at h
    dsimp only at h
    by_cases hc : now - ts > st.ttl_seconds
    · rw [if_pos hc] at h
      exact Option.noConfusion h
    · rw [if_neg hc] at h
      have htl : tl = tools := Option.some.inj h
      subst htl
      exact ⟨ts, rfl⟩

theorem token_valid_of_not_missing (token : Option (List Char))
    (hmt : ¬ missingToken token = true) : ∃ tok, token = some tok ∧ tok ≠ [] := by
  cases token with
  | none => exact absurd rfl hmt
  | some t =>
    cases t with
    | nil => exact absurd rfl hmt
    | cons c r => exact ⟨c :: r, rfl, List.cons_ne_nil c r⟩

/-- **C8, counterexample.**  With a well-formed gateway outcome
`{success: true, result: {"error": "boom"}}`, the execute operation's
success path returns the remote payload verbatim: the response has a
top-level `error` key, carries no `hint`, and is not an error response —
so error responses are not distinguishable by the presence of an `error`
key, and a response with an `error` key need not carry a `hint`. -/
theorem C8_counterexample :
    hasKey (workoflowExecute (some (pstr "t")) (pstr "echo") (pstr "{}")
        (Except.ok (Json.jobj []))
        (ExecOutcome.ok (Json.jobj [(pstr "success", Json.jbool true),
          (pstr "result", Json.jobj [(pstr "error", Json.jstr (pstr "boom"))])]))).output
      (pstr "error") = true
    ∧ hasKey (workoflowExecute (some (pstr "t")) (pstr "echo") (pstr "{}")
        (Except.ok (Json.jobj []))
        (ExecOutcome.ok (Json.jobj [(pstr "success", Json.jbool true),
          (pstr "result", Json.jobj [(pstr "error", Json.jstr (pstr "boom"))])]))).output
      (pstr "hint") = false
    ∧ (workoflowExecute (some (pstr "t")) (pstr "echo") (pstr "{}")
        (Except.ok (Json.jobj []))
        (ExecOutcome.ok (Json.jobj [(pstr "success", Json.jbool true),
          (pstr "result", Json.jobj [(pstr "error", Json.jstr (pstr "boom"))])]))).output
      = Json.jobj [(pstr "error", Json.jstr (pstr "boom"))] :=
  ⟨rfl, rfl, rfl⟩

/-- **C8 (amended): totality of the public surface.**  Over the modelled
outcome space (gateway success payloads shaped per the spec's data model):
the listing operation always produces a JSON value — no exception escapes —
and any of its responses carrying an `error` key also carries a `hint`;
the refresh operation is total by construction and its `error` responses
always carry a `hint`; the execute operation is total by construction and
the hint discipline holds for every response except the success path,
which returns the remote payload verbatim (see the counterexample). -/
theorem C8_totality (token : Option (List Char)) (toolTypes toolName parameters : List Char)
    (st : ToolCache (List Json)) (now : Int) (fo : FetchOutcome) (ex : ExecOutcome)
    (parse : Except (List Char) Json)
    (hcache : st.cache.all (fun kv => kv.2.1.all wfToolJ) = true)
    (hfo : ∀ tools, fo = FetchOutcome.ok tools → tools.all wfToolJ = true) :
    (∃ j, (workoflowListTools token toolTypes st now fo).output = Except.ok j
       ∧ (hasKey j (pstr "error") = true → hasKey j (pstr "hint") = true))
    ∧ (hasKey (workoflowRefresh token toolTypes st now fo).output (pstr "error") = true →
        hasKey (workoflowRefresh token toolTypes st now fo).output (pstr "hint") = true)
    ∧ ((∀ fs, ex = ExecOutcome.ok (Json.jobj fs) →
          truthy (jLookupD fs (pstr "success") Json.jnull) = false) →
        hasKey (workoflowExecute token toolName parameters parse ex).output (pstr "error") = true →
        hasKey (workoflowExecute token toolName parameters parse ex).output (pstr "hint") = true) := by
  refine ⟨?_, ?_, ?_⟩
  · by_cases hmt : missingToken token = true
    · unfold workoflowListTools
      rw [if_pos hmt]
      exact ⟨_, rfl, fun _ => rfl⟩
    · obtain ⟨tok, rfl, htok'⟩ := token_valid_of_not_missing token hmt
      rcases hget : ToolCache.get st tok (some toolTypes) now with ⟨o, st1⟩
      cases o with
      | some tools =>
        have hwf : tools.all wfToolJ = true := by
          obtain ⟨ts, hdg⟩ := get_hit_entry st tok (some toolTypes) now tools (by rw [hget])
          exact List.all_eq_true.mp hcache _ (dictGet_mem _ _ _ hdg)
        obtain ⟨fmt, hfmt⟩ := formatToolsForDisplay_ok tools hwf
        have hL := listTools_hit tok toolTypes htok' st st1 now fo tools fmt hget hfmt
        rw [hL]
        exact ⟨_, rfl, fun h => Bool.noConfusion h⟩
      | none =>
        cases fo with
        | ok tools =>
          obtain ⟨fmt, hfmt⟩ := formatToolsForDisplay_ok tools (hfo tools rfl)
          have hL := listTools_miss_ok tok toolTypes htok' st st1 now tools fmt hget hfmt
          rw [hL]
          exact ⟨_, rfl, fun h => Bool.noConfusion h⟩
        | err m =>
          have hL := listTools_miss_err tok toolTypes htok' st st1 now m hget
          rw [hL]
          exact ⟨_, rfl, fun _ => rfl⟩
  · by_cases hmt : missingToken token = true
    · unfold workoflowRefresh
      rw [if_pos hmt]
      exact fun _ => rfl
    · obtain ⟨tok, rfl, htok'⟩ := token_valid_of_not_missing token hmt
      cases fo with
      | ok tools =>
        cases htl : tools.mapM getToolSummary with
        | ok names =>
          rw [refresh_fetch_ok tok toolTypes htok' st now tools names htl]
          exact fun h => Bool.noConfusion h
        | error e =>
          unfold workoflowRefresh
          rw [if_neg (by rw [missingToken_false tok htok']; exact Bool.false_ne_true)]
          dsimp only [Option.getD]
          rw [htl]
          exact fun _ => rfl
      | err m =>
        rw [refresh_fetch_err tok toolTypes htok' st now m]
        exact fun _ => rfl
  · intro hsucc
    by_cases hmt : missingToken token = true
    · unfold workoflowExecute
      rw [if_pos hmt]
      exact fun _ => rfl
    · obtain ⟨tok, rfl, htok'⟩ := token_valid_of_not_missing token hmt
      unfold workoflowExecute
      rw [if_neg (by rw [missingToken_false tok htok']; exact Bool.false_ne_true)]
      dsimp only
      by_cases hpe : parameters.isEmpty = true
      · rw [if_pos hpe]
        dsimp only
        cases ex with
        | err m => exact fun _ => rfl
        | ok res =>
          cases res with
          | jobj fs =>
            dsimp only
            rw [hsucc fs rfl, if_neg Bool.false_ne_true]
            exact fun _ => rfl
          | jnull => exact fun _ => rfl
          | jbool b => exact fun _ => rfl
          | jnum n => exact fun _ => rfl
          | jstr s => exact fun _ => rfl
          | jarr xs => exact fun _ => rfl
      · rw [if_neg hpe]
        cases parse with
        | error e => exact fun _ => rfl
        | ok p =>
          cases ex with
          | err m => exact fun _ => rfl
          | ok res =>
            cases res with
            | jobj fs =>
              dsimp only
              rw [hsucc fs rfl, if_neg Bool.false_ne_true]
              exact fun _ => rfl
            | jnull => exact fun _ => rfl
            | jbool b => exact fun _ => rfl
            | jnum n => exact fun _ => rfl
            | jstr s => exact fun _ => rfl
            | jarr xs => exact fun _ => rfl

/-- Witness for C8 at concrete inputs (gateway outcomes: transport
failures; execute payload hypothesis holds vacuously). -/
theorem C8_totality_witness :
    (((emptyCache (List Json) 600).cache.all (fun kv => kv.2.1.all wfToolJ) = true)
      ∧ (∀ tools, FetchOutcome.err (pstr "down") = FetchOutcome.ok tools →
          tools.all wfToolJ = true))
    ∧ ((∃ j, (workoflowListTools (some (pstr "t")) (pstr "") (emptyCache (List Json) 600) 0
          (FetchOutcome.err (pstr "down"))).output = Except.ok j
        ∧ (hasKey j (pstr "error") = true → hasKey j (pstr "hint") = true))
      ∧ (hasKey (workoflowRefresh (some (pstr "t")) (pstr "") (emptyCache (List Json) 600) 0
            (FetchOutcome.err (pstr "down"))).output (pstr "error") = true →
          hasKey (workoflowRefresh (some (pstr "t")) (pstr "") (emptyCache (List Json) 600) 0
            (FetchOutcome.err (pstr "down"))).output (pstr "hint") = true)
      ∧ ((∀ fs, ExecOutcome.err (pstr "down") = ExecOutcome.ok (Json.jobj fs) →
            truthy (jLookupD fs (pstr "success") Json.jnull) = false) →
          hasKey (workoflowExecute (some (pstr "t")) (pstr "x") (pstr "{}")
            (Except.ok (Json.jobj [])) (ExecOutcome.err (pstr "down"))).output
            (pstr "error") = true →
          hasKey (workoflowExecute (some (pstr "t")) (pstr "x") (pstr "{}")
            (Except.ok (Json.jobj [])) (ExecOutcome.err (pstr "down"))).output
            (pstr "hint") = true)) :=
  ⟨⟨rfl, fun _ h => FetchOutcome.noConfusion h⟩,
   C8_totality (some (pstr "t")) (pstr "") (pstr "x") (pstr "{}")
     (emptyCache (List Json) 600) 0 (FetchOutcome.err (pstr "down"))
     (ExecOutcome.err (pstr "down")) (Except.ok (Json.jobj []))
     rfl (fun _ h => FetchOutcome.noConfusion h)⟩
